import Mathlib

/-!
# discordgoaudio: session registry, playback controller, recorder

A shallow embedding of `audioWrapper.go` and `voice.go`.

* Go pointers are addresses into explicit heaps (`none` is nil).
* Unbuffered channels carry the number of goroutines blocked receiving on
  them; a send completes only when a receiver is waiting.
* The goroutines of the recorder interleave between their `sync.Map`
  operations: a schedule lists the operations in the order they happen.
* Instants and durations are integers (nanoseconds).
* Calls into discordgo, opus, ffmpeg and the file system take their outcome
  from an explicit environment value.
-/

namespace Discordgoaudio

/-! ## Data model (audioWrapper.go 11-22, voice.go 30-44) -/

/-- Go pointer: `none` is nil, `some a` is the address of an allocated object. -/
abbrev Ptr := Option Nat

/-- An unbuffered `chan bool` (`make(chan bool)`): the number of goroutines
currently blocked receiving on it and the values handed over so far. -/
structure Chan where
  receivers : Nat
  delivered : List Bool
  deriving DecidableEq, Repr

/-- The `audioPlayer` struct: three channel references (addresses in the channel heap). -/
structure audioPlayer where
  StopAudioChannel : Nat
  PauseAudioChannel : Nat
  ResumeAudioChannel : Nat
  deriving DecidableEq, Repr

/-- The anonymous `lastPlayed` struct of `AudioState`. -/
structure LastPlayed where
  lastPlayedTime : Int
  isPlaying : Bool
  shouldCheckDisconnect : Bool
  deriving DecidableEq, Repr

/-- The `AudioState` struct (its mutex is not part of the sequential state). -/
structure AudioState where
  Player : Ptr
  lastPlayed : LastPlayed
  deriving DecidableEq, Repr

/-- Process state: the package-level map `serverAudioState` and the heaps its
pointers refer to. -/
structure World where
  serverAudioState : List (String × Ptr)
  audioStates : List AudioState
  players : List audioPlayer
  chans : List Chan
  deriving DecidableEq, Repr

/-- Map read with the comma-ok form, for any key and value type. -/
def kvLoad {κ α : Type} [DecidableEq κ] (m : List (κ × α)) (k : κ) : Option α :=
  match m with
  | [] => none
  | (k', v) :: rest => if k' = k then some v else kvLoad rest k

/-- Map write, for any key and value type. -/
def kvStore {κ α : Type} [DecidableEq κ] (m : List (κ × α)) (k : κ) (v : α) : List (κ × α) :=
  match m with
  | [] => [(k, v)]
  | (k', v') :: rest => if k' = k then (k, v) :: rest else (k', v') :: kvStore rest k v

/-- Map delete `delete(m, k)`, for any key and value type. -/
def kvErase {κ α : Type} [DecidableEq κ] (m : List (κ × α)) (k : κ) : List (κ × α) :=
  match m with
  | [] => []
  | (k', v) :: rest => if k' = k then kvErase rest k else (k', v) :: kvErase rest k

/-- The state at program start: `make(map[string]*AudioState)`, nothing allocated. -/
def World.init : World :=
  { serverAudioState := [], audioStates := [], players := [], chans := [] }

/-- The key set of the registry. -/
def mapKeys (m : List (String × Ptr)) : List String := m.map Prod.fst

/-- How a call ends: it returns, it blocks forever on a channel operation, or
it panics on a nil dereference. -/
inductive Outcome (α : Type) where
  | returned (a : α)
  | blocked
  | panicked
  deriving DecidableEq, Repr

/-- Function `createNewAudioPlayer` (voice.go 37-44): three fresh channels and a fresh `audioPlayer` holding them. -/
def createNewAudioPlayer (w : World) : Ptr × World :=
  let c := w.chans.length
  let p : audioPlayer :=
    { StopAudioChannel := c, PauseAudioChannel := c + 1, ResumeAudioChannel := c + 2 }
  (some w.players.length,
    { w with players := w.players ++ [p],
             chans := w.chans ++ [⟨0, []⟩, ⟨0, []⟩, ⟨0, []⟩] })

/-- Function `GetServerAudioState` (audioWrapper.go 24-39): the mapped session, or a new one stored under the key. -/
def GetServerAudioState (w : World) (guildID : String) : Ptr × World :=
  match kvLoad w.serverAudioState guildID with
  | some state => (state, w)
  | none =>
    let (player, w1) := createNewAudioPlayer w
    let newState : AudioState :=
      { Player := player, lastPlayed := { lastPlayedTime := 0, isPlaying := false, shouldCheckDisconnect := false } }
    let addr := w1.audioStates.length
    (some addr,
      { w1 with audioStates := w1.audioStates ++ [newState],
                serverAudioState := kvStore w1.serverAudioState guildID (some addr) })

/-- Channel send `ch <- v` on an unbuffered channel: completes only when a
goroutine is blocked receiving on `ch`. -/
def chanSend (chans : List Chan) (ch : Nat) (v : Bool) : Outcome (List Chan) :=
  match chans[ch]? with
  | none => .panicked
  | some c =>
    if c.receivers = 0 then .blocked
    else .returned (chans.set ch { receivers := c.receivers - 1, delivered := c.delivered ++ [v] })

/-- Function `ResetAudioState` (audioWrapper.go 41-51): on a mapped key, send the stop
signal, replace the Player, clear the two flags. -/
def ResetAudioState (w : World) (guildID : String) : Outcome World :=
  match kvLoad w.serverAudioState guildID with
  | none => .returned w
  | some none => .panicked
  | some (some addr) =>
    match w.audioStates[addr]? with
    | none => .panicked
    | some state =>
      match state.Player with
      | none => .panicked
      | some p =>
        match w.players[p]? with
        | none => .panicked
        | some player =>
          match chanSend w.chans player.StopAudioChannel true with
          | .panicked => .panicked
          | .blocked => .blocked
          | .returned chans1 =>
            let (newPlayer, w2) := createNewAudioPlayer { w with chans := chans1 }
            let state1 : AudioState := { state with Player := newPlayer }
            let state2 : AudioState :=
              { state1 with lastPlayed := { state1.lastPlayed with isPlaying := false } }
            let state3 : AudioState :=
              { state2 with lastPlayed := { state2.lastPlayed with shouldCheckDisconnect := false } }
            .returned { w2 with audioStates := w2.audioStates.set addr state3 }

/-- A pointer stored in the registry is sound: it is a live `AudioState`
whose `Player` is a live `audioPlayer` with a live stop channel. -/
def entryOk (w : World) (state : Ptr) : Bool :=
  match state with
  | none => false
  | some addr =>
    match w.audioStates[addr]? with
    | none => false
    | some st =>
      match st.Player with
      | none => false
      | some p =>
        match w.players[p]? with
        | none => false
        | some pl => decide (pl.StopAudioChannel < w.chans.length)

/-- Registry invariant, true at program start and kept by
`GetServerAudioState` and `ResetAudioState`: every mapped pointer is sound. -/
def wf (w : World) : Bool :=
  w.serverAudioState.all fun kv => entryOk w kv.2

/-! ## discordgo session, `LeaveVoice`, `FindUserVoiceChannel` (audioWrapper.go 53-74) -/

/-- One entry of `guild.VoiceStates`. -/
structure VoiceState where
  UserID : String
  ChannelID : String
  deriving DecidableEq, Repr

/-- A guild of `s.State.Guilds`. -/
structure Guild where
  VoiceStates : List VoiceState
  deriving DecidableEq, Repr

/-- A `*discordgo.VoiceConnection` held in `s.VoiceConnections`: the error its
`Disconnect()` returns, and how often this package has called `Disconnect()`
and `Close()` on it. -/
structure VoiceConn where
  disconnectErr : Option String
  disconnectCalls : Nat
  closeCalls : Nat
  deriving DecidableEq, Repr

/-- The parts of `*discordgo.Session` the package reads: the guilds of
`s.State`, the map `s.VoiceConnections`, and the connections that
`Disconnect()` has taken out of that map, in order. -/
structure Session where
  Guilds : List Guild
  VoiceConnections : List (String × VoiceConn)
  Disconnected : List (String × VoiceConn)
  deriving DecidableEq, Repr

/-- Function `LeaveVoice`: disconnect and close the guild's voice connection
when there is one. discordgo's `Disconnect()` deletes the guild's entry from
`s.VoiceConnections` whatever it returns. -/
def LeaveVoice (s : Session) (guildID : String) : Session × Option String :=
  match kvLoad s.VoiceConnections guildID with
  | some vc =>
    let vc1 := { vc with disconnectCalls := vc.disconnectCalls + 1 }
    let conns := kvErase s.VoiceConnections guildID
    match vc.disconnectErr with
    | some err =>
      ({ s with VoiceConnections := conns, Disconnected := s.Disconnected ++ [(guildID, vc1)] },
        some ("error disconnecting from voice channel: " ++ err))
    | none =>
      let vc2 := { vc1 with closeCalls := vc1.closeCalls + 1 }
      ({ s with VoiceConnections := conns, Disconnected := s.Disconnected ++ [(guildID, vc2)] },
        none)
  | none => (s, none)

/-- The inner loop of `FindUserVoiceChannel` over one guild's voice states. -/
def findInVoiceStates (vss : List VoiceState) (userID : String) : Option String :=
  match vss with
  | [] => none
  | voiceState :: rest =>
    if voiceState.UserID = userID then some voiceState.ChannelID
    else findInVoiceStates rest userID

/-- Function `FindUserVoiceChannel`: the channel of the first voice state of the user. -/
def FindUserVoiceChannel (guilds : List Guild) (userID : String) : Except String String :=
  match guilds with
  | [] => .error "user is not in a voice channel"
  | guild :: rest =>
    match findInVoiceStates guild.VoiceStates userID with
    | some channelID => .ok channelID
    | none => FindUserVoiceChannel rest userID

/-! ## PCM samples and frames (voice.go 46-51) -/

/-- Go `int16`. -/
abbrev int16 := { x : Int // -32768 ≤ x ∧ x < 32768 }

def channels : Nat := 2
def sampleRate : Nat := 48000
def frameSize : Nat := 960
def maxBytes : Nat := (frameSize * 2) * 2

/-! ## `sendPCM` (voice.go 67-108) -/

/-- What one turn of the `select` in `sendPCM` receives: a pause signal, a
resume signal, a frame from `pcm` (with `v.Ready && v.OpusSend != nil` as read
in that turn), or the closing of `pcm`. -/
inductive Event where
  | pause
  | resume
  | frame (recv : List int16) (ready : Bool)
  | closed
  deriving DecidableEq

/-- The opus encoder: `opus.NewEncoder` may fail, and `Encode` answers from
the frames encoded so far and the frame given. -/
structure SendEnv where
  newEncoderErr : Option String
  encode : List (List int16) → List int16 → Except String (List Nat)

/-- Loop state of `sendPCM`: the `paused` flag, the frames passed to
`Encode`, and the packets written to `v.OpusSend`. -/
structure SendState where
  paused : Bool
  encoded : List (List int16)
  opusSend : List (List Nat)
  deriving DecidableEq

/-- The `for { select { ... } }` loop of `sendPCM`. -/
def sendLoop (env : SendEnv) (st : SendState) (events : List Event) :
    SendState × Outcome String :=
  match events with
  | [] => (st, .blocked)
  | .pause :: rest => sendLoop env { st with paused := true } rest
  | .resume :: rest => sendLoop env { st with paused := false } rest
  | .closed :: _ => (st, .returned "PCM channel closed")
  | .frame recv ready :: rest =>
    if st.paused then sendLoop env st rest
    else
      let st1 := { st with encoded := st.encoded ++ [recv] }
      match env.encode st.encoded recv with
      | .error err => (st1, .returned ("error encoding audio: " ++ err))
      | .ok opusBuf =>
        if !ready then (st1, .returned "discord connection not ready")
        else sendLoop env { st1 with opusSend := st1.opusSend ++ [opusBuf] } rest

/-- Function `sendPCM`: the nil check, the encoder creation, then the loop. -/
def sendPCM (env : SendEnv) (pcmNil : Bool) (events : List Event) :
    SendState × Outcome String :=
  let st0 : SendState := { paused := false, encoded := [], opusSend := [] }
  if pcmNil then (st0, .returned "PCM channel is nil")
  else
    match env.newEncoderErr with
    | some err => (st0, .returned ("error creating new encoder: " ++ err))
    | none => sendLoop env st0 events

/-! ## `playAudioFile` (voice.go 110-168) -/

/-- Result of `binary.Read` into one frame buffer. -/
inductive ReadResult where
  | frame (audiobuf : List int16)
  | eof
  | unexpectedEOF
  | err (msg : String)
  deriving DecidableEq

/-- The case the `select` of the frame loop takes. -/
inductive SelectCase where
  | sent
  | closeChan
  | stop
  deriving DecidableEq

/-- One iteration of the frame loop: what the read gives, and which case the
`select` takes when the read gave a frame. -/
structure Iteration where
  read : ReadResult
  sel : SelectCase
  deriving DecidableEq

/-- The frame loop of `playAudioFile`: the frames handed to `send`, and how
the loop ends. When no further iteration is given the read never returns. -/
def frameLoop (handed : List (List int16)) (its : List Iteration) :
    List (List int16) × Outcome (Option String) :=
  match its with
  | [] => (handed, .blocked)
  | it :: rest =>
    match it.read with
    | .eof => (handed, .returned none)
    | .unexpectedEOF => (handed, .returned none)
    | .err msg => (handed, .returned (some ("error reading from ffmpeg stdout: " ++ msg)))
    | .frame audiobuf =>
      match it.sel with
      | .sent => frameLoop (handed ++ [audiobuf]) rest
      | .closeChan => (handed, .returned none)
      | .stop => (handed, .returned none)

/-- What ffmpeg, the connection and the scheduler give one `playAudioFile` call. -/
structure PlayEnv where
  stdoutPipeErr : Option String
  startErr : Option String
  speakingErr : Option String
  iterations : List Iteration
  deriving DecidableEq

/-- Function `playAudioFile`: start ffmpeg, set the speaking indicator, run the frame loop. -/
def playAudioFile (env : PlayEnv) : List (List int16) × Outcome (Option String) :=
  match env.stdoutPipeErr with
  | some err => ([], .returned (some ("error creating stdout pipe: " ++ err)))
  | none =>
    match env.startErr with
    | some err => ([], .returned (some ("error starting ffmpeg: " ++ err)))
    | none =>
      match env.speakingErr with
      | some err => ([], .returned (some ("error setting speaking state: " ++ err)))
      | none => frameLoop [] env.iterations

/-! ## `JoinChannel`, `runJoinChannel` (audioWrapper.go 76-137) -/

/-- What discordgo, ffmpeg and the scheduler give one `JoinChannel` call:
`s.State.Guilds` as the n-th lookup finds it, the result and duration of the
n-th `ChannelVoiceJoin`, the errors of the two `Speaking` calls, and the
playback. -/
structure JoinEnv where
  guildsAt : Nat → List Guild
  joinAt : Nat → Except String VoiceConn
  joinTime : Nat → Nat
  speakingTrueErr : Option String
  play : PlayEnv
  playTime : Nat
  speakingFalseErr : Option String

/-- State threaded through `runJoinChannel`: the `AudioState` behind the
pointer argument, the discordgo session, the clock (`time.Now()`), and the
number of `ChannelVoiceJoin` calls made so far. -/
structure RunState where
  audioState : AudioState
  s : Session
  clock : Int
  joinCalls : Nat
  deriving DecidableEq

/-- The two assignments of the deferred function of `runJoinChannel` (lines
124-125), with `now` the value of `time.Now()`. -/
def markPlaybackEnded (audioState : AudioState) (now : Int) : AudioState :=
  { audioState with
    lastPlayed := { audioState.lastPlayed with lastPlayedTime := now, isPlaying := false } }

/-- The deferred function of `runJoinChannel` (lines 121-126): sleep one
second, then record the end of the playback. -/
def deferredCleanup (st : RunState) : RunState :=
  let clock := st.clock + 1000000000
  { st with clock := clock, audioState := markPlaybackEnded st.audioState clock }

/-- Lines 128-136 of `runJoinChannel`, run with the deferred function registered. -/
def playAndFinish (env : JoinEnv) (st : RunState) : RunState × Outcome (Option String) :=
  match st.audioState.Player with
  | none => (st, .panicked)
  | some _ =>
    let st1 := { st with clock := st.clock + env.playTime }
    match (playAudioFile env.play).2 with
    | .blocked => (st1, .blocked)
    | .panicked => (st1, .panicked)
    | .returned (some err) => (st1, .returned (some ("error playing audio file: " ++ err)))
    | .returned none =>
      match env.speakingFalseErr with
      | some err => (st1, .returned (some ("error setting speaking state to false: " ++ err)))
      | none => (st1, .returned none)

/-- Lines 111-137 of `runJoinChannel`: set the speaking indicator, mark the
session as playing, register the deferred function, play. The deferred
function runs when the call returns or panics. -/
def speakAndPlay (env : JoinEnv) (st : RunState) (guildID : String) :
    RunState × Outcome (Option String) :=
  match env.speakingTrueErr with
  | some err =>
    match LeaveVoice st.s guildID with
    | (s1, some leaveErr) =>
      ({ st with s := s1 }, .returned (some
        ("error setting speaking state: " ++ err ++ ", and error leaving voice: " ++ leaveErr)))
    | (s1, none) =>
      ({ st with s := s1 }, .returned (some ("error setting speaking state: " ++ err)))
  | none =>
    let st1 := { st with audioState := { st.audioState with
      lastPlayed := { st.audioState.lastPlayed with
        isPlaying := true, shouldCheckDisconnect := true } } }
    let r := playAndFinish env st1
    match r.2 with
    | .blocked => r
    | out => (deferredCleanup r.1, out)

/-- Function `runJoinChannel`. The goroutine of lines 101-109 runs beside the call and
is not part of it. -/
def runJoinChannel (env : JoinEnv) (st : RunState) (guildID userID : String) (tries : Nat) :
    RunState × Outcome (Option String) :=
  let st0 := { st with s := { st.s with Guilds := env.guildsAt st.joinCalls } }
  match FindUserVoiceChannel st0.s.Guilds userID with
  | .error err => (st0, .returned (some ("error finding user voice channel: " ++ err)))
  | .ok _ =>
    let n := st0.joinCalls
    let st1 := { st0 with clock := st0.clock + 350000000 + env.joinTime n, joinCalls := n + 1 }
    match env.joinAt n with
    | .error err =>
      if tries < 10 then runJoinChannel env st1 guildID userID (tries + 1)
      else
        (st1, .returned (some
          ("error joining voice channel after " ++ toString tries ++ " tries: " ++ err)))
    | .ok vc =>
      speakAndPlay env
        { st1 with s := { st1.s with
            VoiceConnections := kvStore st1.s.VoiceConnections guildID vc } } guildID
termination_by 10 - tries
decreasing_by omega

/-- Function `JoinChannel`: look the session up (creating it when absent) and run
`runJoinChannel` on it with `tries = 0`. -/
def JoinChannel (env : JoinEnv) (w : World) (s : Session) (clock : Int)
    (guildID userID : String) : World × RunState × Outcome (Option String) :=
  let (audioState, w1) := GetServerAudioState w guildID
  let dflt : AudioState := { Player := none, lastPlayed := ⟨0, false, false⟩ }
  match audioState with
  | none => (w1, ⟨dflt, s, clock, 0⟩, .panicked)
  | some addr =>
    match w1.audioStates[addr]? with
    | none => (w1, ⟨dflt, s, clock, 0⟩, .panicked)
    | some state =>
      let (st, out) := runJoinChannel env ⟨state, s, clock, 0⟩ guildID userID 0
      ({ w1 with audioStates := w1.audioStates.set addr st.audioState }, st, out)

/-! ## `CheckDisconnectTimer` (audioWrapper.go 139-152) -/

def maxDuration : Int := 9223372036854775807
def minDuration : Int := -9223372036854775808

/-- The value of `time.Since(t)` read at the instant `now`: the difference as a Go
`Duration`, which stops at the largest and smallest `int64`. -/
def timeSince (now t : Int) : Int :=
  let d := now - t
  if d > maxDuration then maxDuration else if d < minDuration then minDuration else d

/-- One iteration of the loop of `CheckDisconnectTimer`, before its sleep,
at the instant `now`. The `Bool` tells whether `LeaveVoice` was called. -/
def checkDisconnectStep (s : Session) (audioState : AudioState) (guildID : String)
    (disconnectTimeOut now : Int) : Session × AudioState × Bool :=
  if timeSince now audioState.lastPlayed.lastPlayedTime > disconnectTimeOut
      && !audioState.lastPlayed.isPlaying && audioState.lastPlayed.shouldCheckDisconnect then
    let (s1, _) := LeaveVoice s guildID
    (s1, { audioState with
      lastPlayed := { audioState.lastPlayed with shouldCheckDisconnect := false } }, true)
  else (s, audioState, false)

/-- What can happen to a session between playback starts: a watchdog check
at an instant, or the deferred function of a playback that ends at an instant. -/
inductive WatchdogEvent where
  | check (now : Int)
  | playbackEnded (now : Int)
  deriving DecidableEq

/-- Run the events in order; the count is the number of checks that called `LeaveVoice`. -/
def watchdogRun (guildID : String) (disconnectTimeOut : Int) (s : Session)
    (audioState : AudioState) (events : List WatchdogEvent) : Session × AudioState × Nat :=
  match events with
  | [] => (s, audioState, 0)
  | .check now :: rest =>
    match checkDisconnectStep s audioState guildID disconnectTimeOut now with
    | (s1, a1, fired) =>
      match watchdogRun guildID disconnectTimeOut s1 a1 rest with
      | (s2, a2, n) => (s2, a2, n + (if fired then 1 else 0))
  | .playbackEnded now :: rest =>
    watchdogRun guildID disconnectTimeOut s (markPlaybackEnded audioState now) rest

/-- Function `CheckDisconnectTimer`: the loop of its goroutine, one iteration at each
of the given instants, with nothing else touching the session in between. -/
def CheckDisconnectTimer (s : Session) (audioState : AudioState) (guildID : String)
    (disconnectTimeOut : Int) (instants : List Int) : Session × AudioState × Nat :=
  watchdogRun guildID disconnectTimeOut s audioState (instants.map WatchdogEvent.check)

/-! ## Recorder: `saveAudioBySpeaker`, `savePCMAsWAV` (voice.go 201-274) -/

/-- A `*discordgo.Packet` as the recorder reads it. -/
structure Packet where
  SSRC : Nat
  PCM : List int16
  deriving DecidableEq

/-- A WAV file: the arguments given to `wav.NewWriter` and the data bytes
given to `writer.Write`. -/
structure WavFile where
  numSamples : Nat
  numChannels : Nat
  sampleRate : Nat
  bitsPerSample : Nat
  data : List Nat
  deriving DecidableEq

/-- What the file system answers to one `savePCMAsWAV` call. -/
structure WriteOutcome where
  createErr : Option String
  writeErr : Option String
  deriving DecidableEq

/-- The conversion `uint16(sample)`. -/
def uint16 (sample : int16) : Nat := (sample.val % 65536).toNat

/-- The call `binary.LittleEndian.PutUint16(b[off:], v)`: low byte at `off`, high byte after it. -/
def PutUint16 (b : List Nat) (off : Nat) (v : Nat) : List Nat :=
  (b.set off (v % 256)).set (off + 1) (v / 256 % 256)

/-- The loop of lines 262-264, from index `i` on. -/
def fillBuffer (pcm : List int16) (i : Nat) (buffer : List Nat) : List Nat :=
  match pcm with
  | [] => buffer
  | sample :: rest => fillBuffer rest (i + 1) (PutUint16 buffer (i * 2) (uint16 sample))

/-- The byte buffer `savePCMAsWAV` builds (lines 259-264). -/
def wavBuffer (pcm : List int16) : List Nat :=
  fillBuffer pcm 0 (List.replicate (pcm.length * 2) 0)

/-- Function `savePCMAsWAV`: `os.Create` truncates the file, then the buffer is written. -/
def savePCMAsWAV (files : List (String × WavFile)) (pcm : List int16) (filename : String)
    (o : WriteOutcome) : List (String × WavFile) × Option String :=
  match o.createErr with
  | some err => (files, some ("error creating file: " ++ err))
  | none =>
    let numSamples := pcm.length
    let buffer := wavBuffer pcm
    let header : WavFile :=
      { numSamples := (numSamples / channels) % 4294967296, numChannels := channels % 65536,
        sampleRate := sampleRate % 4294967296, bitsPerSample := 16, data := [] }
    match o.writeErr with
    | some err => (kvStore files filename header, some ("error writing WAV data: " ++ err))
    | none => (kvStore files filename { header with data := buffer }, none)

/-- Where the `for user := range c` loop stands between two of its
`sync.Map` operations: waiting for a packet; after `LoadOrStore` (line 209)
and the `append` (line 213), holding the local `pcmBuffer`; or after
`pcmBuffers.Store` (line 214), before `lastPacketTimes.Store` (line 215). -/
inductive LoopPc where
  | waiting
  | appended (userSSRC : Nat) (pcmBuffer : List int16)
  | bufferStored (userSSRC : Nat)
  deriving DecidableEq

/-- Where a watcher goroutine stands inside one wake-up: after the time test
(lines 221-226); after `pcmBuffers.Load` (line 228) and the length test,
holding the local `pcmBuffer`; or after `pcmBuffers.Store` of the empty
buffer (line 236), before `savePCMAsWAV`. A sleeping watcher has no entry. -/
inductive WatcherPc where
  | timeOk
  | loaded (pcmBuffer : List int16)
  | swapped (pcmBuffer : List int16)
  deriving DecidableEq

/-- State of one `saveAudioBySpeaker` call: its two `sync.Map`s, the
goroutines it has started (by the SSRC each was given), the package map
`ssrcToUserID.ssrcMap`, the files, the calls of `savePCMAsWAV` made so far
(SSRC of the calling goroutine, path, samples), where the loop stands, and
where each watcher that is inside a wake-up stands (by its index in
`watchers`). -/
structure RecState where
  pcmBuffers : List (Nat × List int16)
  lastPacketTimes : List (Nat × Int)
  watchers : List Nat
  ssrcMap : List (Nat × String)
  files : List (String × WavFile)
  saveCalls : List (Nat × String × List int16)
  loop : LoopPc
  held : List (Nat × WatcherPc)
  deriving DecidableEq

/-- The state when `saveAudioBySpeaker` starts. -/
def RecState.init (ssrcMap : List (Nat × String)) (files : List (String × WavFile)) : RecState :=
  { pcmBuffers := [], lastPacketTimes := [], watchers := [], ssrcMap := ssrcMap,
    files := files, saveCalls := [], loop := .waiting, held := [] }

/-- Lines 206-213: the loop takes a packet, does `pcmBuffers.LoadOrStore` and
appends the packet's PCM to its local copy. -/
def loopLoad (st : RecState) (user : Packet) : RecState :=
  match st.loop with
  | .waiting =>
    let userSSRC := user.SSRC
    let loaded : List int16 × List (Nat × List int16) :=
      match kvLoad st.pcmBuffers userSSRC with
      | some buffer => (buffer, st.pcmBuffers)
      | none => ([], kvStore st.pcmBuffers userSSRC [])
    { st with pcmBuffers := loaded.2, loop := .appended userSSRC (loaded.1 ++ user.PCM) }
  | _ => st

/-- Line 214: the loop stores its local buffer. -/
def loopStoreBuffer (st : RecState) : RecState :=
  match st.loop with
  | .appended userSSRC pcmBuffer =>
    { st with pcmBuffers := kvStore st.pcmBuffers userSSRC pcmBuffer,
              loop := .bufferStored userSSRC }
  | _ => st

/-- Lines 215-245: the loop stores `time.Now()` and starts a goroutine for the packet's SSRC. -/
def loopStoreTime (st : RecState) (now : Int) : RecState :=
  match st.loop with
  | .bufferStored userSSRC =>
    { st with lastPacketTimes := kvStore st.lastPacketTimes userSSRC now,
              watchers := st.watchers ++ [userSSRC], loop := .waiting }
  | _ => st

/-- Lines 220-226: a sleeping watcher wakes at the instant `now`, loads the
last packet time and tests the silence. -/
def wakeCheck (silenceThreshold : Int) (st : RecState) (watcher : Nat) (now : Int) : RecState :=
  match st.watchers[watcher]?, kvLoad st.held watcher with
  | some userSSRC, none =>
    match kvLoad st.lastPacketTimes userSSRC with
    | none => st
    | some lastPacketTime =>
      if timeSince now lastPacketTime ≥ silenceThreshold then
        { st with held := kvStore st.held watcher .timeOk }
      else st
  | _, _ => st

/-- Lines 228-235: the watcher loads the buffer and goes back to sleep when it is empty. -/
def wakeLoad (st : RecState) (watcher : Nat) : RecState :=
  match st.watchers[watcher]?, kvLoad st.held watcher with
  | some userSSRC, some .timeOk =>
    match kvLoad st.pcmBuffers userSSRC with
    | none => { st with held := kvErase st.held watcher }
    | some pcmBuffer =>
      if pcmBuffer.length = 0 then { st with held := kvErase st.held watcher }
      else { st with held := kvStore st.held watcher (.loaded pcmBuffer) }
  | _, _ => st

/-- Line 236: the watcher stores an empty buffer. -/
def wakeStore (st : RecState) (watcher : Nat) : RecState :=
  match st.watchers[watcher]?, kvLoad st.held watcher with
  | some userSSRC, some (.loaded pcmBuffer) =>
    { st with pcmBuffers := kvStore st.pcmBuffers userSSRC [],
              held := kvStore st.held watcher (.swapped pcmBuffer) }
  | _, _ => st

/-- Lines 238-242: the watcher builds the path and hands its local buffer to
`savePCMAsWAV`, then sleeps again. -/
def wakeSave (saveLocation : String) (st : RecState) (watcher : Nat) (o : WriteOutcome) :
    RecState :=
  match st.watchers[watcher]?, kvLoad st.held watcher with
  | some userSSRC, some (.swapped pcmBuffer) =>
    let filePath := saveLocation ++ (kvLoad st.ssrcMap userSSRC).getD "" ++ ".wav"
    let saved := savePCMAsWAV st.files pcmBuffer filePath o
    { st with files := saved.1, saveCalls := st.saveCalls ++ [(userSSRC, filePath, pcmBuffer)],
              held := kvErase st.held watcher }
  | _, _ => st

/-- The steps of the goroutines of one `saveAudioBySpeaker` call, one
`sync.Map` operation each, and a speaking update handled by
`populateSSRCMap`. A schedule is a sequence of such steps; a step of a
goroutine that is not at that point does nothing. -/
inductive RecEvent where
  | loopLoad (user : Packet)
  | loopStoreBuffer
  | loopStoreTime (now : Int)
  | wakeCheck (watcher : Nat) (now : Int)
  | wakeLoad (watcher : Nat)
  | wakeStore (watcher : Nat)
  | wakeSave (watcher : Nat) (o : WriteOutcome)
  | speaking (SSRC : Nat) (UserID : String)
  deriving DecidableEq

/-- One step of the recorder. -/
def recStep (saveLocation : String) (silenceThreshold : Int) (st : RecState) (ev : RecEvent) :
    RecState :=
  match ev with
  | .loopLoad user => loopLoad st user
  | .loopStoreBuffer => loopStoreBuffer st
  | .loopStoreTime now => loopStoreTime st now
  | .wakeCheck watcher now => wakeCheck silenceThreshold st watcher now
  | .wakeLoad watcher => wakeLoad st watcher
  | .wakeStore watcher => wakeStore st watcher
  | .wakeSave watcher o => wakeSave saveLocation st watcher o
  | .speaking ssrc userID => { st with ssrcMap := kvStore st.ssrcMap ssrc userID }

/-- The recorder run over a schedule. -/
def saveAudioBySpeaker (saveLocation : String) (silenceThreshold : Int) (st : RecState)
    (events : List RecEvent) : RecState :=
  match events with
  | [] => st
  | ev :: rest =>
    saveAudioBySpeaker saveLocation silenceThreshold (recStep saveLocation silenceThreshold st ev) rest

/-- One iteration of the `for user := range c` loop (lines 205-246) run
without another goroutine stepping in between, with `now` the value of
`time.Now()`. -/
def receivePacket (st : RecState) (user : Packet) (now : Int) : RecState :=
  let userSSRC := user.SSRC
  let loaded : List int16 × List (Nat × List int16) :=
    match kvLoad st.pcmBuffers userSSRC with
    | some buffer => (buffer, st.pcmBuffers)
    | none => ([], kvStore st.pcmBuffers userSSRC [])
  let pcmBuffer := loaded.1 ++ user.PCM
  { st with
    pcmBuffers := kvStore loaded.2 userSSRC pcmBuffer
    lastPacketTimes := kvStore st.lastPacketTimes userSSRC now
    watchers := st.watchers ++ [userSSRC] }

/-- One wake-up of a goroutine of lines 218-245 (the loop body after the
sleep) run without another goroutine stepping in between, at the instant
`now`. -/
def watcherWake (saveLocation : String) (silenceThreshold : Int) (st : RecState)
    (userSSRC : Nat) (now : Int) (o : WriteOutcome) : RecState :=
  match kvLoad st.lastPacketTimes userSSRC with
  | none => st
  | some lastPacketTime =>
    if timeSince now lastPacketTime ≥ silenceThreshold then
      match kvLoad st.pcmBuffers userSSRC with
      | none => st
      | some pcmBuffer =>
        if pcmBuffer.length = 0 then st
        else
          let st1 := { st with pcmBuffers := kvStore st.pcmBuffers userSSRC [] }
          let filePath := saveLocation ++ (kvLoad st1.ssrcMap userSSRC).getD "" ++ ".wav"
          let saved := savePCMAsWAV st1.files pcmBuffer filePath o
          { st1 with files := saved.1, saveCalls := st1.saveCalls ++ [(userSSRC, filePath, pcmBuffer)] }
    else st

/-- A turn of one goroutine run from start to end with nothing in between:
a whole loop iteration for a packet, a whole wake-up of a watcher, or a
speaking update. -/
inductive Turn where
  | packet (user : Packet) (now : Int)
  | wake (watcher : Nat) (now : Int) (o : WriteOutcome)
  | speaking (SSRC : Nat) (UserID : String)
  deriving DecidableEq

/-- The steps a turn consists of. -/
def Turn.steps (t : Turn) : List RecEvent :=
  match t with
  | .packet user now => [.loopLoad user, .loopStoreBuffer, .loopStoreTime now]
  | .wake watcher now o =>
    [.wakeCheck watcher now, .wakeLoad watcher, .wakeStore watcher, .wakeSave watcher o]
  | .speaking ssrc userID => [.speaking ssrc userID]

/-- What a turn does as a whole. -/
def turnStep (saveLocation : String) (silenceThreshold : Int) (st : RecState) (t : Turn) :
    RecState :=
  match t with
  | .packet user now => receivePacket st user now
  | .wake watcher now o =>
    match st.watchers[watcher]? with
    | some userSSRC => watcherWake saveLocation silenceThreshold st userSSRC now o
    | none => st
  | .speaking ssrc userID => { st with ssrcMap := kvStore st.ssrcMap ssrc userID }

/-- A sequence of whole turns. -/
def runTurns (saveLocation : String) (silenceThreshold : Int) (st : RecState)
    (turns : List Turn) : RecState :=
  match turns with
  | [] => st
  | t :: rest =>
    runTurns saveLocation silenceThreshold (turnStep saveLocation silenceThreshold st t) rest

/-- The samples a turn hands to `savePCMAsWAV`, with the SSRC of the
goroutine that hands them, when the turn makes such a call. -/
def flushAt (saveLocation : String) (silenceThreshold : Int) (st : RecState) (t : Turn) :
    Option (Nat × List int16) :=
  (((turnStep saveLocation silenceThreshold st t).saveCalls.drop st.saveCalls.length).head?).map
    fun c => (c.1, c.2.2)

/-- The turns of a run, each with the flush it made. -/
def history (saveLocation : String) (silenceThreshold : Int) (st : RecState)
    (turns : List Turn) : List (Turn × Option (Nat × List int16)) :=
  match turns with
  | [] => []
  | t :: rest =>
    (t, flushAt saveLocation silenceThreshold st t) ::
      history saveLocation silenceThreshold (turnStep saveLocation silenceThreshold st t) rest

/-- The PCM a turn brings for source `s`: that of a packet tagged `s`, else nothing. -/
def packetPCM (s : Nat) (t : Turn) : List int16 :=
  match t with
  | .packet user _ => if user.SSRC = s then user.PCM else []
  | _ => []

/-- Reading of the claim: the concatenation, in arrival order, of the PCM of
the packets tagged `s` received since the previous flush of `s`. The history
is given latest turn first. -/
def receivedSinceFlush (s : Nat) (latestFirst : List (Turn × Option (Nat × List int16))) :
    List int16 :=
  match latestFirst with
  | [] => []
  | (t, out) :: older =>
    if out.map Prod.fst = some s then [] else receivedSinceFlush s older ++ packetPCM s t

/-- The PCM of the packets tagged `s` that a schedule takes from the channel, in order. -/
def receivedPCM (s : Nat) (events : List RecEvent) : List int16 :=
  events.flatMap fun ev =>
    match ev with
    | .loopLoad user => if user.SSRC = s then user.PCM else []
    | _ => []

/-- Reading `int16` values back from little-endian bytes. -/
def readInt16LE (bytes : List Nat) : List Int :=
  match bytes with
  | b0 :: b1 :: rest =>
    let u := b0 + 256 * b1
    (if u < 32768 then (u : Int) else (u : Int) - 65536) :: readInt16LE rest
  | _ => []

/-- The number of distinct source tags among the packets of a run. -/
def distinctSources (events : List RecEvent) : Nat :=
  ((events.filterMap fun ev =>
    match ev with
    | .loopLoad user => some user.SSRC
    | _ => none).dedup).length

/-! ## Specification-side definitions and concrete inputs -/

/-- A session whose playback loop is waiting on the stop channel: the state
after the first lookup of "guild", with one receiver on channel 0. -/
def playingWorld : World :=
  { (GetServerAudioState World.init "guild").2 with
    chans := [⟨1, []⟩, ⟨0, []⟩, ⟨0, []⟩] }

/-- A user "user" sitting in voice channel "chan". -/
def guildsWithUser : List Guild := [⟨[⟨"user", "chan"⟩]⟩]

/-- Every `ChannelVoiceJoin` fails with "boom"; the user is in a voice channel. -/
def envJoinNeverWorks : JoinEnv :=
  { guildsAt := fun _ => guildsWithUser, joinAt := fun _ => .error "boom",
    joinTime := fun _ => 0, speakingTrueErr := none, play := ⟨none, none, none, []⟩,
    playTime := 0, speakingFalseErr := none }

/-- The user is in no voice channel. -/
def envUserAbsent : JoinEnv :=
  { guildsAt := fun _ => [], joinAt := fun _ => .error "boom",
    joinTime := fun _ => 0, speakingTrueErr := none, play := ⟨none, none, none, []⟩,
    playTime := 0, speakingFalseErr := none }

/-- The first ten joins fail with "boom", the eleventh works; the playback
then reads end-of-input at once. -/
def envEleventhJoinWorks : JoinEnv :=
  { guildsAt := fun _ => guildsWithUser,
    joinAt := fun n => if n < 10 then .error "boom" else .ok ⟨none, 0, 0⟩,
    joinTime := fun _ => 0, speakingTrueErr := none,
    play := ⟨none, none, none, [⟨.eof, .sent⟩]⟩, playTime := 0, speakingFalseErr := none }

/-- The join works at once; the playback hands one frame off and then reads
end-of-input after 20 ms. -/
def envPlaysToEnd : JoinEnv :=
  { guildsAt := fun _ => guildsWithUser, joinAt := fun _ => .ok ⟨none, 0, 0⟩,
    joinTime := fun _ => 0, speakingTrueErr := none,
    play := ⟨none, none, none, [⟨.frame [], .sent⟩, ⟨.eof, .sent⟩]⟩,
    playTime := 20000000, speakingFalseErr := none }

/-- A fresh session at clock 1000 with no join made yet. -/
def idleRun : RunState :=
  { audioState := ⟨some 0, ⟨0, false, false⟩⟩, s := ⟨[], [], []⟩, clock := 1000, joinCalls := 0 }

/-- The call returned on one of the early error paths (user's voice channel
not found, join failure after the retries, failure to set the speaking
indicator) and left the `AudioState` as it was. -/
def EarlyExit (before : AudioState) (r : RunState × Outcome (Option String)) : Prop :=
  r.1.audioState = before ∧
  ∃ e, r.2 = .returned (some ("error finding user voice channel: " ++ e)) ∨
    (∃ t : Nat, r.2 = .returned (some
      ("error joining voice channel after " ++ toString t ++ " tries: " ++ e))) ∨
    r.2 = .returned (some ("error setting speaking state: " ++ e))

/-- The call ended after the deferred function was registered (normal
completion, playback error, failure to clear the speaking indicator, or a
panic on a nil Player): `isPlaying` is false, `shouldCheckDisconnect` is
true, and `lastPlayedTime` is the clock reading at the end of the call. -/
def LateExit (r : RunState × Outcome (Option String)) : Prop :=
  r.1.audioState.lastPlayed = ⟨r.1.clock, false, true⟩ ∧
  (r.2 = .returned none ∨ r.2 = .panicked ∨
    ∃ e, r.2 = .returned (some ("error playing audio file: " ++ e)) ∨
      r.2 = .returned (some ("error setting speaking state to false: " ++ e)))

/-- Pause and resume signals. -/
def isSignal (e : Event) : Bool :=
  match e with
  | .pause => true
  | .resume => true
  | _ => false

/-- The paused flag as the claim words it: clear at the start, set by a
pause signal, cleared by a resume signal; so it is set exactly when the
latest signal among the events so far is a pause. -/
def flagAfter (sofar : List Event) : Bool :=
  match (sofar.filter isSignal).getLast? with
  | some .pause => true
  | _ => false

/-- The frames that arrive while the flag is clear, in arrival order;
`sofar` holds the events before those still to come. -/
def clearArrivals (sofar : List Event) (events : List Event) : List (List int16) :=
  match events with
  | [] => []
  | .frame recv ready :: rest =>
    (if flagAfter sofar then [] else [recv]) ++ clearArrivals (sofar ++ [.frame recv ready]) rest
  | .pause :: rest => clearArrivals (sofar ++ [.pause]) rest
  | .resume :: rest => clearArrivals (sofar ++ [.resume]) rest
  | .closed :: rest => clearArrivals (sofar ++ [.closed]) rest

/-- The packets the encoder gives for a sequence of frames encoded in order,
after the frames `done`; it stops at the first frame the encoder rejects. -/
def encodeAll (env : SendEnv) (done : List (List int16)) (frames : List (List int16)) :
    List (List Nat) :=
  match frames with
  | [] => []
  | f :: rest =>
    match env.encode done f with
    | .ok opusBuf => opusBuf :: encodeAll env (done ++ [f]) rest
    | .error _ => []

/-- No `pcm` close, and the connection is ready at every frame. -/
def undisturbed (events : List Event) : Bool :=
  events.all fun e =>
    match e with
    | .closed => false
    | .frame _ ready => ready
    | _ => true

/-- An encoder that never fails: it answers with the number of samples. -/
def lengthEncoder : SendEnv :=
  { newEncoderErr := none, encode := fun _ f => .ok [f.length] }

def sampleOne : int16 := ⟨1, by decide⟩
def sampleTwo : int16 := ⟨2, by decide⟩

/-- A frame, a pause, a frame while paused, a resume, two more frames. -/
def pauseResumeEvents : List Event :=
  [.frame [sampleOne] true, .pause, .frame [sampleOne, sampleTwo] true, .resume,
    .frame [sampleTwo] true, .frame [] true]

/-- The number of packet turns. -/
def packetCount (turns : List Turn) : Nat :=
  (turns.filter fun t =>
    match t with
    | .packet _ _ => true
    | _ => false).length

/-- Two packets of the same source 7, at instants 0 and 20. -/
def twoPacketsOneSource : List RecEvent :=
  (Turn.packet ⟨7, [sampleOne]⟩ 0).steps ++ (Turn.packet ⟨7, [sampleTwo]⟩ 20).steps

/-- Source 7 has one buffered sample; its last packet came at instant 0. -/
def oneBufferedSample : RecState :=
  { pcmBuffers := [(7, [sampleOne])], lastPacketTimes := [(7, 0)], watchers := [7],
    ssrcMap := [(7, "alice")], files := [], saveCalls := [], loop := .waiting, held := [] }

/-- The two bytes of a sample, low byte first. -/
def sampleBytes (sample : int16) : List Nat :=
  [uint16 sample % 256, uint16 sample / 256 % 256]

/-- The samples buffered for source `s` (none when the source has no entry). -/
def bufferOf (st : RecState) (s : Nat) : List int16 := (kvLoad st.pcmBuffers s).getD []

def sampleThree : int16 := ⟨3, by decide⟩

/-- Source 7 sends [1] at instant 0. Its watcher wakes at 600, passes the
time test and loads the buffer [1]. Before the watcher stores the empty
buffer the loop takes the packet [2], which it appends to [1] and stores. The
watcher then stores the empty buffer and saves [1]. The packet [3] follows at
620, and the watcher's wake-up at 1200 flushes again. -/
def lostSampleSchedule : List RecEvent :=
  (Turn.packet ⟨7, [sampleOne]⟩ 0).steps ++
  [.wakeCheck 0 600, .wakeLoad 0] ++
  (Turn.packet ⟨7, [sampleTwo]⟩ 600).steps ++
  [.wakeStore 0, .wakeSave 0 ⟨none, none⟩] ++
  (Turn.packet ⟨7, [sampleThree]⟩ 620).steps ++
  (Turn.wake 0 1200 ⟨none, none⟩).steps

/-- Source 7 sends [1] at instant 0. The loop takes the packet [2] and appends
it to the loaded [1]; before it stores the result the watcher wakes at 600
and flushes [1]. The loop then stores [1, 2], and the watcher's wake-up at
1200 flushes again. -/
def repeatedSampleSchedule : List RecEvent :=
  (Turn.packet ⟨7, [sampleOne]⟩ 0).steps ++
  [.loopLoad ⟨7, [sampleTwo]⟩] ++
  (Turn.wake 0 600 ⟨none, none⟩).steps ++
  [.loopStoreBuffer, .loopStoreTime 610] ++
  (Turn.wake 0 1200 ⟨none, none⟩).steps

/-! ## Lemmas on maps -/

theorem kvLoad_kvStore_same {κ α : Type} [DecidableEq κ] (m : List (κ × α)) (k : κ) (v : α) :
    kvLoad (kvStore m k v) k = some v := by
  induction m with
  | nil => simp [kvStore, kvLoad]
  | cons hd tl ih =>
    obtain ⟨k', v'⟩ := hd
    by_cases h : k' = k
    · simp [kvStore, kvLoad, h]
    · simp [kvStore, kvLoad, h, ih]

theorem kvLoad_kvStore_ne {κ α : Type} [DecidableEq κ] (m : List (κ × α)) (k k2 : κ) (v : α)
    (hne : k2 ≠ k) : kvLoad (kvStore m k v) k2 = kvLoad m k2 := by
  induction m with
  | nil =>
    have : ¬ k = k2 := fun h => hne h.symm
    simp [kvStore, kvLoad, this]
  | cons hd tl ih =>
    obtain ⟨k', v'⟩ := hd
    by_cases h : k' = k
    · subst h
      have : ¬ k' = k2 := fun h => hne h.symm
      simp [kvStore, kvLoad, this]
    · by_cases h2 : k' = k2
      · subst h2
        simp [kvStore, kvLoad, h]
      · simp [kvStore, kvLoad, h, h2, ih]

theorem kvLoad_kvErase_same {κ α : Type} [DecidableEq κ] (m : List (κ × α)) (k : κ) :
    kvLoad (kvErase m k) k = none := by
  induction m with
  | nil => simp [kvErase, kvLoad]
  | cons hd tl ih =>
    obtain ⟨k', v'⟩ := hd
    by_cases h : k' = k
    · simp [kvErase, h, ih]
    · simp [kvErase, kvLoad, h, ih]

theorem kvErase_kvStore_absent {κ α : Type} [DecidableEq κ] (m : List (κ × α)) (k : κ) (v : α)
    (h : kvLoad m k = none) : kvErase (kvStore m k v) k = m := by
  induction m with
  | nil => simp [kvStore, kvErase]
  | cons hd tl ih =>
    obtain ⟨k', v'⟩ := hd
    by_cases hk : k' = k
    · simp [kvLoad, hk] at h
    · simp only [kvLoad, hk, if_false] at h
      simp [kvStore, kvErase, hk, ih h]

theorem kvStore_kvStore {κ α : Type} [DecidableEq κ] (m : List (κ × α)) (k : κ) (a b : α) :
    kvStore (kvStore m k a) k b = kvStore m k b := by
  induction m with
  | nil => simp [kvStore]
  | cons hd tl ih =>
    obtain ⟨k', v'⟩ := hd
    by_cases hk : k' = k
    · simp [kvStore, hk]
    · simp [kvStore, hk, ih]

theorem mem_kvStore {κ α : Type} [DecidableEq κ] (m : List (κ × α)) (k : κ) (v : α)
    (x : κ × α) (hx : x ∈ kvStore m k v) : x ∈ m ∨ x = (k, v) := by
  induction m with
  | nil => simp [kvStore] at hx; exact Or.inr hx
  | cons hd tl ih =>
    obtain ⟨k', v'⟩ := hd
    by_cases h : k' = k
    · simp [kvStore, h] at hx
      rcases hx with hx | hx
      · exact Or.inr hx
      · exact Or.inl (List.mem_cons_of_mem _ hx)
    · simp [kvStore, h] at hx
      rcases hx with hx | hx
      · exact Or.inl (by rw [hx]; exact List.mem_cons_self _ _)
      · rcases ih hx with h1 | h1
        · exact Or.inl (List.mem_cons_of_mem _ h1)
        · exact Or.inr h1

theorem kvLoad_mem {κ α : Type} [DecidableEq κ] (m : List (κ × α)) (k : κ) (v : α)
    (h : kvLoad m k = some v) : (k, v) ∈ m := by
  induction m with
  | nil => simp [kvLoad] at h
  | cons hd tl ih =>
    obtain ⟨k', v'⟩ := hd
    by_cases hk : k' = k
    · simp [kvLoad, hk] at h
      simp [hk, h]
    · simp [kvLoad, hk] at h
      exact List.mem_cons_of_mem _ (ih h)

/-! ## Session registry -/

theorem entryOk_iff (w : World) (state : Ptr) :
    entryOk w state = true ↔
      ∃ addr st p pl, state = some addr ∧ w.audioStates[addr]? = some st ∧ st.Player = some p ∧
        w.players[p]? = some pl ∧ pl.StopAudioChannel < w.chans.length := by
  constructor
  · intro hall
    unfold entryOk at hall
    cases state with
    | none => simp at hall
    | some addr =>
      simp only at hall
      cases h1 : w.audioStates[addr]? with
      | none => simp [h1] at hall
      | some st =>
        simp only [h1] at hall
        cases h2 : st.Player with
        | none => simp [h2] at hall
        | some p =>
          simp only [h2] at hall
          cases h3 : w.players[p]? with
          | none => simp [h3] at hall
          | some pl =>
            simp only [h3] at hall
            exact ⟨addr, st, p, pl, rfl, h1, h2, h3, by simpa using hall⟩
  · rintro ⟨addr, st, p, pl, rfl, h1, h2, h3, h4⟩
    simp [entryOk, h1, h2, h3, h4]

theorem wf_entry (w : World) (hw : wf w = true) (k : String) (state : Ptr)
    (h : kvLoad w.serverAudioState k = some state) :
    ∃ addr st p pl, state = some addr ∧ w.audioStates[addr]? = some st ∧ st.Player = some p ∧
      w.players[p]? = some pl ∧ pl.StopAudioChannel < w.chans.length :=
  (entryOk_iff w state).mp ((List.all_eq_true.mp hw) _ (kvLoad_mem _ _ _ h))

theorem getElem?_append_of_some {α : Type} (l l2 : List α) (i : Nat) (x : α)
    (h : l[i]? = some x) : (l ++ l2)[i]? = some x := by
  have hi : i < l.length := by
    by_contra hc
    have : l[i]? = none := List.getElem?_eq_none (by omega)
    rw [this] at h
    cases h
  rw [List.getElem?_append_left hi]
  exact h

theorem wf_GetServerAudioState (w : World) (key : String) (hw : wf w = true) :
    wf (GetServerAudioState w key).2 = true := by
  unfold GetServerAudioState
  cases hk : kvLoad w.serverAudioState key with
  | some state => simpa using hw
  | none =>
    simp only [createNewAudioPlayer]
    unfold wf
    rw [List.all_eq_true]
    intro x hx
    rw [entryOk_iff]
    rcases mem_kvStore _ _ _ _ hx with hx | hx
    · obtain ⟨addr, st, p, pl, h0, h1, h2, h3, h4⟩ :=
        (entryOk_iff w x.2).mp ((List.all_eq_true.mp hw) _ hx)
      refine ⟨addr, st, p, pl, h0, ?_, h2, ?_, ?_⟩
      · exact getElem?_append_of_some _ _ _ _ h1
      · exact getElem?_append_of_some _ _ _ _ h3
      · simp only [List.length_append]
        omega
    · subst hx
      refine ⟨w.audioStates.length, ⟨some w.players.length, ⟨0, false, false⟩⟩,
        w.players.length, ⟨w.chans.length, w.chans.length + 1, w.chans.length + 2⟩,
        rfl, ?_, rfl, ?_, ?_⟩
      · simp
      · simp
      · simp

/-- C1. For every sound registry state and every key, `GetServerAudioState`
returns a non-nil session with a non-nil Player. When the key is mapped it
returns exactly the mapped session and leaves the whole state unchanged; when
it is absent it stores and returns a new session (at an address not allocated
before) whose Player is newly allocated. A second call with the same key
returns the same session and changes nothing, so the two calls together
create at most one Player; the state stays sound. -/
theorem GetServerAudioState_get_or_create (w : World) (key : String) (hw : wf w = true) :
    (∃ addr st p pl, (GetServerAudioState w key).1 = some addr ∧
        (GetServerAudioState w key).2.audioStates[addr]? = some st ∧ st.Player = some p ∧
        (GetServerAudioState w key).2.players[p]? = some pl) ∧
    (∀ state, kvLoad w.serverAudioState key = some state →
        GetServerAudioState w key = (state, w)) ∧
    (kvLoad w.serverAudioState key = none →
        (GetServerAudioState w key).1 = some w.audioStates.length ∧
        kvLoad (GetServerAudioState w key).2.serverAudioState key
          = some (some w.audioStates.length) ∧
        (GetServerAudioState w key).2.audioStates
          = w.audioStates ++ [⟨some w.players.length, ⟨0, false, false⟩⟩] ∧
        (GetServerAudioState w key).2.players.length = w.players.length + 1 ∧
        (∀ k, k ≠ key → kvLoad (GetServerAudioState w key).2.serverAudioState k
          = kvLoad w.serverAudioState k)) ∧
    GetServerAudioState (GetServerAudioState w key).2 key
      = ((GetServerAudioState w key).1, (GetServerAudioState w key).2) ∧
    (GetServerAudioState (GetServerAudioState w key).2 key).2.players.length
      ≤ w.players.length + 1 ∧
    wf (GetServerAudioState w key).2 = true := by
  have hwf := wf_GetServerAudioState w key hw
  have hsecond : GetServerAudioState (GetServerAudioState w key).2 key
      = ((GetServerAudioState w key).1, (GetServerAudioState w key).2) := by
    cases hk : kvLoad w.serverAudioState key with
    | some state => simp [GetServerAudioState, hk]
    | none =>
      simp [GetServerAudioState, hk, createNewAudioPlayer, kvLoad_kvStore_same]
  have hlen : (GetServerAudioState w key).2.players.length ≤ w.players.length + 1 := by
    cases hk : kvLoad w.serverAudioState key with
    | some state => simp [GetServerAudioState, hk]
    | none => simp [GetServerAudioState, hk, createNewAudioPlayer]
  refine ⟨?_, ?_, ?_, hsecond, ?_, hwf⟩
  · cases hk : kvLoad w.serverAudioState key with
    | some state =>
      obtain ⟨addr, st, p, pl, h0, h1, h2, h3, _⟩ := wf_entry w hw key state hk
      exact ⟨addr, st, p, pl, by simp [GetServerAudioState, hk, h0],
        by simpa [GetServerAudioState, hk] using h1, h2,
        by simpa [GetServerAudioState, hk] using h3⟩
    | none =>
      refine ⟨w.audioStates.length, ⟨some w.players.length, ⟨0, false, false⟩⟩,
        w.players.length, ⟨w.chans.length, w.chans.length + 1, w.chans.length + 2⟩,
        ?_, ?_, rfl, ?_⟩
      · simp [GetServerAudioState, hk, createNewAudioPlayer]
      · simp [GetServerAudioState, hk, createNewAudioPlayer]
      · simp [GetServerAudioState, hk, createNewAudioPlayer]
  · intro state hk
    simp [GetServerAudioState, hk]
  · intro hk
    refine ⟨?_, ?_, ?_, ?_, ?_⟩
    · simp [GetServerAudioState, hk, createNewAudioPlayer]
    · simp [GetServerAudioState, hk, createNewAudioPlayer, kvLoad_kvStore_same]
    · simp [GetServerAudioState, hk, createNewAudioPlayer]
    · simp [GetServerAudioState, hk, createNewAudioPlayer]
    · intro k hne
      simp [GetServerAudioState, hk, createNewAudioPlayer, kvLoad_kvStore_ne _ _ _ _ hne]
  · rw [hsecond]
    exact hlen

/-- Witness for C1: the first lookup of a guild at program start. -/
theorem GetServerAudioState_get_or_create_witness :
    wf World.init = true ∧
    (GetServerAudioState World.init "guild").1 = some 0 ∧
    GetServerAudioState (GetServerAudioState World.init "guild").2 "guild"
      = ((GetServerAudioState World.init "guild").1, (GetServerAudioState World.init "guild").2) :=
  ⟨by decide, by decide,
    (GetServerAudioState_get_or_create World.init "guild" (by decide)).2.2.2.1⟩

theorem getElem?_lt_of_some {α : Type} (l : List α) (i : Nat) (x : α)
    (h : l[i]? = some x) : i < l.length := by
  by_contra hc
  have : l[i]? = none := List.getElem?_eq_none (by omega)
  rw [this] at h
  cases h

theorem getElem?_set_same {α : Type} (l : List α) (i : Nat) (x y : α)
    (h : l[i]? = some x) : (l.set i y)[i]? = some y := by
  have hi := getElem?_lt_of_some l i x h
  simp [List.getElem?_set, hi]

/-- What `ResetAudioState` does. The stop signal is sent on an unbuffered channel,
so what the call does with a mapped key depends on whether a
goroutine (the frame loop of a running playback) is receiving on the current
Player's stop channel. If one is, the signal is handed over and the call
returns with the same session still mapped under the key, `isPlaying` and
`shouldCheckDisconnect` false, `lastPlayedTime` kept, and a newly allocated
Player at an address different from the old one. If none is, the call blocks
at the send. If the key is absent the call returns the state unchanged.
Whenever the call returns, the map itself (so its key set) is unchanged. -/
theorem ResetAudioState_when_receiver_waits (w : World) (key : String) (hw : wf w = true) :
    (kvLoad w.serverAudioState key = none → ResetAudioState w key = .returned w) ∧
    (∀ state, kvLoad w.serverAudioState key = some state →
      ∃ addr st p pl c, state = some addr ∧ w.audioStates[addr]? = some st ∧
        st.Player = some p ∧ w.players[p]? = some pl ∧
        w.chans[pl.StopAudioChannel]? = some c ∧
        (c.receivers = 0 → ResetAudioState w key = .blocked) ∧
        (0 < c.receivers → ∃ w2, ResetAudioState w key = .returned w2 ∧
          w2.chans[pl.StopAudioChannel]? = some ⟨c.receivers - 1, c.delivered ++ [true]⟩ ∧
          kvLoad w2.serverAudioState key = some (some addr) ∧
          w2.audioStates[addr]? = some
            ⟨some w.players.length, ⟨st.lastPlayed.lastPlayedTime, false, false⟩⟩ ∧
          p ≠ w.players.length ∧
          w2.players = w.players ++
            [⟨w.chans.length, w.chans.length + 1, w.chans.length + 2⟩] ∧
          pl.StopAudioChannel < w.chans.length)) ∧
    (∀ w2, ResetAudioState w key = .returned w2 →
      w2.serverAudioState = w.serverAudioState ∧
      mapKeys w2.serverAudioState = mapKeys w.serverAudioState) := by
  refine ⟨?_, ?_, ?_⟩
  · intro hk
    simp [ResetAudioState, hk]
  · intro state hk
    obtain ⟨addr, st, p, pl, h0, h1, h2, h3, h4⟩ := wf_entry w hw key state hk
    subst h0
    have hc : ∃ c, w.chans[pl.StopAudioChannel]? = some c :=
      ⟨w.chans[pl.StopAudioChannel], List.getElem?_eq_getElem h4⟩
    obtain ⟨c, hc⟩ := hc
    refine ⟨addr, st, p, pl, c, rfl, h1, h2, h3, hc, ?_, ?_⟩
    · intro hr
      simp [ResetAudioState, hk, h1, h2, h3, chanSend, hc, hr]
    · intro hr
      have hr0 : c.receivers ≠ 0 := by omega
      refine ⟨{ serverAudioState := w.serverAudioState
                audioStates := w.audioStates.set addr
                  ⟨some w.players.length, ⟨st.lastPlayed.lastPlayedTime, false, false⟩⟩
                players := w.players ++
                  [⟨w.chans.length, w.chans.length + 1, w.chans.length + 2⟩]
                chans := w.chans.set pl.StopAudioChannel
                  ⟨c.receivers - 1, c.delivered ++ [true]⟩ ++ [⟨0, []⟩, ⟨0, []⟩, ⟨0, []⟩] },
        ?_, ?_, ?_, ?_, ?_, ?_, h4⟩
      · simp [ResetAudioState, hk, h1, h2, h3, chanSend, hc, hr0, createNewAudioPlayer]
      · exact getElem?_append_of_some _ _ _ _ (getElem?_set_same _ _ _ _ hc)
      · exact hk
      · exact getElem?_set_same _ _ _ _ h1
      · have := getElem?_lt_of_some _ _ _ h3
        omega
      · rfl
  · intro w2 hret
    cases hk : kvLoad w.serverAudioState key with
    | none =>
      simp [ResetAudioState, hk] at hret
      subst hret
      exact ⟨rfl, rfl⟩
    | some state =>
      obtain ⟨addr, st, p, pl, h0, h1, h2, h3, h4⟩ := wf_entry w hw key state hk
      subst h0
      have hc : ∃ c, w.chans[pl.StopAudioChannel]? = some c :=
        ⟨w.chans[pl.StopAudioChannel], List.getElem?_eq_getElem h4⟩
      obtain ⟨c, hc⟩ := hc
      by_cases hr : c.receivers = 0
      · simp [ResetAudioState, hk, h1, h2, h3, chanSend, hc, hr] at hret
      · simp only [ResetAudioState, hk, h1, h2, h3, chanSend, hc, hr, if_false,
          createNewAudioPlayer, Outcome.returned.injEq] at hret
        subst hret
        exact ⟨rfl, rfl⟩

/-- Reset of a session whose frame loop is receiving on the stop channel. -/
theorem ResetAudioState_when_receiver_waits_witness :
    wf playingWorld = true ∧
    ∀ w2, ResetAudioState playingWorld "guild" = .returned w2 →
      w2.serverAudioState = playingWorld.serverAudioState ∧
      mapKeys w2.serverAudioState = mapKeys playingWorld.serverAudioState :=
  ⟨by decide, (ResetAudioState_when_receiver_waits playingWorld "guild" (by decide)).2.2⟩

/-- C2, the code at the failing input: right after the first lookup of
"guild" the key is mapped to a sound session, no goroutine receives on its
Player's stop channel, and `ResetAudioState` blocks at the send instead of
returning: the signal is not handed over, the flags are not cleared, the
Player is not replaced. -/
theorem ResetAudioState_blocks_on_idle_session :
    wf (GetServerAudioState World.init "guild").2 = true ∧
    kvLoad (GetServerAudioState World.init "guild").2.serverAudioState "guild" = some (some 0) ∧
    ResetAudioState (GetServerAudioState World.init "guild").2 "guild" = Outcome.blocked ∧
    ¬ ∃ w2, ResetAudioState (GetServerAudioState World.init "guild").2 "guild"
      = Outcome.returned w2 := by
  refine ⟨by decide, by decide, by decide, ?_⟩
  rintro ⟨w2, h⟩
  have hb : ResetAudioState (GetServerAudioState World.init "guild").2 "guild"
      = Outcome.blocked := by decide
  rw [hb] at h
  cases h

/-! ## Playback controller -/

theorem runJoinChannel_join_fails (env : JoinEnv) (st : RunState) (g u : String) (tries : Nat)
    (c e : String) (hfind : FindUserVoiceChannel (env.guildsAt st.joinCalls) u = .ok c)
    (hjoin : env.joinAt st.joinCalls = .error e) :
    runJoinChannel env st g u tries =
      if tries < 10 then
        runJoinChannel env
          { st with s := { st.s with Guilds := env.guildsAt st.joinCalls },
                    clock := st.clock + 350000000 + env.joinTime st.joinCalls,
                    joinCalls := st.joinCalls + 1 } g u (tries + 1)
      else
        ({ st with s := { st.s with Guilds := env.guildsAt st.joinCalls },
                   clock := st.clock + 350000000 + env.joinTime st.joinCalls,
                   joinCalls := st.joinCalls + 1 },
          .returned (some
            ("error joining voice channel after " ++ toString tries ++ " tries: " ++ e))) := by
  rw [runJoinChannel]
  simp only [hfind, hjoin]

theorem runJoinChannel_all_fail (env : JoinEnv) (g u : String) (k : Nat) :
    ∀ (st : RunState) (tries : Nat), tries + k = 10 →
      (∀ n, n ≤ k → ∃ c, FindUserVoiceChannel (env.guildsAt (st.joinCalls + n)) u = .ok c) →
      (∀ n, n ≤ k → ∃ e, env.joinAt (st.joinCalls + n) = .error e) →
      ∃ e, env.joinAt (st.joinCalls + k) = .error e ∧
        (runJoinChannel env st g u tries).2 = .returned (some
          ("error joining voice channel after " ++ toString 10 ++ " tries: " ++ e)) ∧
        (runJoinChannel env st g u tries).1.joinCalls = st.joinCalls + k + 1 ∧
        (runJoinChannel env st g u tries).1.audioState = st.audioState := by
  induction k with
  | zero =>
    intro st tries ht hfind hjoin
    obtain ⟨c, hc⟩ := hfind 0 (le_refl _)
    obtain ⟨e, he⟩ := hjoin 0 (le_refl _)
    simp only [Nat.add_zero] at hc he ht
    subst ht
    refine ⟨e, he, ?_⟩
    rw [runJoinChannel_join_fails env st g u 10 c e hc he]
    simp
  | succ k ih =>
    intro st tries ht hfind hjoin
    obtain ⟨c, hc⟩ := hfind 0 (Nat.zero_le _)
    obtain ⟨e, he⟩ := hjoin 0 (Nat.zero_le _)
    simp only [Nat.add_zero] at hc he
    have hlt : tries < 10 := by omega
    rw [runJoinChannel_join_fails env st g u tries c e hc he]
    simp only [hlt, if_true]
    have key := ih
      { st with s := { st.s with Guilds := env.guildsAt st.joinCalls },
                clock := st.clock + 350000000 + env.joinTime st.joinCalls,
                joinCalls := st.joinCalls + 1 } (tries + 1) (by omega)
      (by
        intro n hn
        have := hfind (n + 1) (by omega)
        simpa [Nat.add_assoc, Nat.add_comm 1 n] using this)
      (by
        intro n hn
        have := hjoin (n + 1) (by omega)
        simpa [Nat.add_assoc, Nat.add_comm 1 n] using this)
    obtain ⟨e2, h1, h2, h3, h4⟩ := key
    refine ⟨e2, ?_, h2, ?_, h4⟩
    · simpa [Nat.add_assoc, Nat.add_comm 1 k] using h1
    · rw [h3]
      simp only
      omega

theorem runJoinChannel_all_attempts_fail (env : JoinEnv) (st : RunState)
    (guildID userID : String)
    (hfind : ∀ n, n ≤ 10 →
      ∃ c, FindUserVoiceChannel (env.guildsAt (st.joinCalls + n)) userID = .ok c)
    (hjoin : ∀ n, n ≤ 10 → ∃ e, env.joinAt (st.joinCalls + n) = .error e) :
    ∃ e, env.joinAt (st.joinCalls + 10) = .error e ∧
      (runJoinChannel env st guildID userID 0).2 = .returned (some
        ("error joining voice channel after 10 tries: " ++ e)) ∧
      (runJoinChannel env st guildID userID 0).1.joinCalls = st.joinCalls + 11 ∧
      (runJoinChannel env st guildID userID 0).1.audioState = st.audioState := by
  obtain ⟨e, h1, h2, h3, h4⟩ :=
    runJoinChannel_all_fail env guildID userID 10 st 0 (by omega) hfind hjoin
  refine ⟨e, h1, ?_, h3, h4⟩
  rw [h2]
  have : toString (10 : Nat) = "10" := by decide
  rw [this]
  simp [String.append_assoc]

theorem JoinChannel_runs (env : JoinEnv) (w : World) (s : Session) (clock : Int)
    (guildID userID : String) (hw : wf w = true) :
    ∃ addr st, (GetServerAudioState w guildID).1 = some addr ∧
      (GetServerAudioState w guildID).2.audioStates[addr]? = some st ∧
      (JoinChannel env w s clock guildID userID).2
        = runJoinChannel env ⟨st, s, clock, 0⟩ guildID userID 0 := by
  have hlive : ∃ addr st, (GetServerAudioState w guildID).1 = some addr ∧
      (GetServerAudioState w guildID).2.audioStates[addr]? = some st := by
    cases hk : kvLoad w.serverAudioState guildID with
    | some state =>
      obtain ⟨addr, st, p, pl, h0, h1, _, _, _⟩ := wf_entry w hw guildID state hk
      exact ⟨addr, st, by simp [GetServerAudioState, hk, h0],
        by simpa [GetServerAudioState, hk] using h1⟩
    | none =>
      exact ⟨w.audioStates.length, ⟨some w.players.length, ⟨0, false, false⟩⟩,
        by simp [GetServerAudioState, hk, createNewAudioPlayer],
        by simp [GetServerAudioState, hk, createNewAudioPlayer]⟩
  obtain ⟨addr, st, h1, h2⟩ := hlive
  refine ⟨addr, st, h1, h2, ?_⟩
  have hpair : GetServerAudioState w guildID = (some addr, (GetServerAudioState w guildID).2) := by
    rw [← h1]
  unfold JoinChannel
  rw [hpair]
  simp only [h2]

/-- Ten failed joins do not end the call: when the eleventh join works the
playback runs and the call returns nil after eleven join attempts. -/
theorem runJoinChannel_eleventh_attempt (st : RunState) (h : st.joinCalls = 0)
    (hp : st.audioState.Player = some 0) :
    (runJoinChannel envEleventhJoinWorks st "guild" "user" 0).2 = .returned none ∧
    (runJoinChannel envEleventhJoinWorks st "guild" "user" 0).1.joinCalls = 11 := by
  obtain ⟨a, s, clock, calls⟩ := st
  simp only at h hp
  subst h
  simp [runJoinChannel, envEleventhJoinWorks, guildsWithUser, FindUserVoiceChannel,
    findInVoiceStates, speakAndPlay, playAndFinish, hp, playAudioFile, frameLoop,
    deferredCleanup]

/-- C3, what the code does. In a run of `JoinChannel` on a sound registry in
which the user's voice channel is found at every lookup and
`ChannelVoiceJoin` fails on each of the first eleven attempts, the call
returns the error of the eleventh attempt under the message "after 10
tries": it has then made eleven join attempts, one more than the number the
message names. -/
theorem JoinChannel_gives_up_after_eleven_attempts (env : JoinEnv) (w : World) (s : Session)
    (clock : Int) (guildID userID : String) (hw : wf w = true)
    (hfind : ∀ n, n ≤ 10 → ∃ c, FindUserVoiceChannel (env.guildsAt n) userID = .ok c)
    (hjoin : ∀ n, n ≤ 10 → ∃ e, env.joinAt n = .error e) :
    ∃ e, env.joinAt 10 = .error e ∧
      (JoinChannel env w s clock guildID userID).2.2 = .returned (some
        ("error joining voice channel after 10 tries: " ++ e)) ∧
      (JoinChannel env w s clock guildID userID).2.1.joinCalls = 11 := by
  obtain ⟨addr, st, _, _, hrun⟩ := JoinChannel_runs env w s clock guildID userID hw
  obtain ⟨e, h1, h2, h3, _⟩ :=
    runJoinChannel_all_attempts_fail env ⟨st, s, clock, 0⟩ guildID userID
      (by simpa using hfind) (by simpa using hjoin)
  refine ⟨e, by simpa using h1, ?_, ?_⟩
  · rw [hrun]
    exact h2
  · rw [hrun]
    simpa using h3

/-- Witness for C3: at program start, the user is in a voice channel and
every join fails with "boom". Eleven attempts are made and the message names
ten. -/
theorem JoinChannel_gives_up_after_eleven_attempts_witness :
    wf World.init = true ∧
    ∃ e, envJoinNeverWorks.joinAt 10 = .error e ∧
      (JoinChannel envJoinNeverWorks World.init ⟨[], [], []⟩ 0 "guild" "user").2.2
        = .returned (some ("error joining voice channel after 10 tries: " ++ e)) ∧
      (JoinChannel envJoinNeverWorks World.init ⟨[], [], []⟩ 0 "guild" "user").2.1.joinCalls = 11 :=
  ⟨by decide,
    JoinChannel_gives_up_after_eleven_attempts envJoinNeverWorks World.init ⟨[], [], []⟩ 0
      "guild" "user" (by decide) (fun _ _ => ⟨"chan", rfl⟩) (fun _ _ => ⟨"boom", rfl⟩)⟩

theorem playAndFinish_cases (env : JoinEnv) (st : RunState) :
    (playAndFinish env st).2 = .blocked ∨
    ((playAndFinish env st).1.audioState = st.audioState ∧
      ((playAndFinish env st).2 = .returned none ∨ (playAndFinish env st).2 = .panicked ∨
        ∃ e, (playAndFinish env st).2 = .returned (some ("error playing audio file: " ++ e)) ∨
          (playAndFinish env st).2
            = .returned (some ("error setting speaking state to false: " ++ e)))) := by
  unfold playAndFinish
  cases st.audioState.Player with
  | none => exact Or.inr ⟨rfl, Or.inr (Or.inl rfl)⟩
  | some p =>
    simp only
    cases (playAudioFile env.play).2 with
    | blocked => exact Or.inl rfl
    | panicked => exact Or.inr ⟨rfl, Or.inr (Or.inl rfl)⟩
    | returned a =>
      cases a with
      | some err => exact Or.inr ⟨rfl, Or.inr (Or.inr ⟨err, Or.inl rfl⟩)⟩
      | none =>
        simp only
        cases env.speakingFalseErr with
        | some err => exact Or.inr ⟨rfl, Or.inr (Or.inr ⟨err, Or.inr rfl⟩)⟩
        | none => exact Or.inr ⟨rfl, Or.inl rfl⟩

theorem speakAndPlay_cases (env : JoinEnv) (st : RunState) (g : String) :
    (speakAndPlay env st g).2 = .blocked ∨
    EarlyExit st.audioState (speakAndPlay env st g) ∨
    LateExit (speakAndPlay env st g) := by
  unfold speakAndPlay
  cases hs : env.speakingTrueErr with
  | some err =>
    simp only
    cases hl : (LeaveVoice st.s g).2 with
    | some leaveErr =>
      have : LeaveVoice st.s g = ((LeaveVoice st.s g).1, some leaveErr) := by rw [← hl]
      rw [this]
      exact Or.inr (Or.inl ⟨rfl, err ++ ", and error leaving voice: " ++ leaveErr,
        Or.inr (Or.inr (by simp [String.append_assoc]))⟩)
    | none =>
      have : LeaveVoice st.s g = ((LeaveVoice st.s g).1, none) := by rw [← hl]
      rw [this]
      exact Or.inr (Or.inl ⟨rfl, err, Or.inr (Or.inr rfl)⟩)
  | none =>
    simp only
    rcases playAndFinish_cases env
      { st with audioState := { st.audioState with
          lastPlayed := { st.audioState.lastPlayed with
            isPlaying := true, shouldCheckDisconnect := true } } } with hb | ⟨ha, hc⟩
    · left
      rw [hb]
      simpa using hb
    · right; right
      rcases hc with hc | hc | ⟨e, hc | hc⟩
      all_goals
        rw [hc]
        refine ⟨?_, ?_⟩
        · simp [deferredCleanup, markPlaybackEnded, ha]
        · first
          | exact Or.inl rfl
          | exact Or.inr (Or.inl rfl)
          | exact Or.inr (Or.inr ⟨e, Or.inl rfl⟩)
          | exact Or.inr (Or.inr ⟨e, Or.inr rfl⟩)

theorem runJoinChannel_paths (env : JoinEnv) (g u : String) (k : Nat) :
    ∀ (st : RunState) (tries : Nat), 10 - tries ≤ k →
      (runJoinChannel env st g u tries).2 = .blocked ∨
      EarlyExit st.audioState (runJoinChannel env st g u tries) ∨
      LateExit (runJoinChannel env st g u tries) := by
  induction k with
  | zero =>
    intro st tries hk
    have hlt : ¬ tries < 10 := by omega
    rw [runJoinChannel]
    simp only [hlt, if_false]
    cases hf : FindUserVoiceChannel (env.guildsAt st.joinCalls) u with
    | error err => exact Or.inr (Or.inl ⟨rfl, err, Or.inl rfl⟩)
    | ok c =>
      simp only
      cases hj : env.joinAt st.joinCalls with
      | error err => exact Or.inr (Or.inl ⟨rfl, err, Or.inr (Or.inl ⟨tries, rfl⟩)⟩)
      | ok vc => exact speakAndPlay_cases env _ g
  | succ k ih =>
    intro st tries hk
    rw [runJoinChannel]
    cases hf : FindUserVoiceChannel (env.guildsAt st.joinCalls) u with
    | error err => exact Or.inr (Or.inl ⟨rfl, err, Or.inl rfl⟩)
    | ok c =>
      simp only
      cases hj : env.joinAt st.joinCalls with
      | error err =>
        simp only
        by_cases hlt : tries < 10
        · simp only [hlt, if_true]
          exact ih _ (tries + 1) (by omega)
        · simp only [hlt, if_false]
          exact Or.inr (Or.inl ⟨rfl, err, Or.inr (Or.inl ⟨tries, rfl⟩)⟩)
      | ok vc => exact speakAndPlay_cases env _ g

/-- C5, as the code has it. A call of `runJoinChannel` on a session with
`isPlaying = false` either never returns (the playback blocks), or returns
on an early error path (voice channel not found, join failure after the
retries, failure to set the speaking indicator) with the `AudioState`
untouched, so `lastPlayedTime` is not updated there, or ends after the
deferred function was registered (normal completion, playback error, failure
to clear the speaking indicator) with `isPlaying = false` and
`lastPlayedTime` equal to the clock reading at the end of the call. Whenever
the call returns, `isPlaying` is false. -/
theorem runJoinChannel_exit_state (env : JoinEnv) (st : RunState) (guildID userID : String)
    (tries : Nat) (h0 : st.audioState.lastPlayed.isPlaying = false) :
    ((runJoinChannel env st guildID userID tries).2 = .blocked ∨
      EarlyExit st.audioState (runJoinChannel env st guildID userID tries) ∨
      LateExit (runJoinChannel env st guildID userID tries)) ∧
    (∀ err, (runJoinChannel env st guildID userID tries).2 = .returned err →
      (runJoinChannel env st guildID userID tries).1.audioState.lastPlayed.isPlaying = false) := by
  have h := runJoinChannel_paths env guildID userID (10 - tries) st tries (le_refl _)
  refine ⟨h, ?_⟩
  intro err hret
  rcases h with hb | ⟨ha, _⟩ | ⟨hl, _⟩
  · rw [hb] at hret
    cases hret
  · rw [ha]
    exact h0
  · rw [hl]

/-- Witness for C5: a playback that runs to the end on an idle session
started at clock 1000. The call returns nil with `isPlaying = false`, and
`lastPlayedTime` is the clock at the end of the call: 1000 + 350 ms before
the join + 20 ms of playback + 1 s in the deferred function. -/
theorem runJoinChannel_exit_state_witness :
    idleRun.audioState.lastPlayed.isPlaying = false ∧
    (runJoinChannel envPlaysToEnd idleRun "guild" "user" 0).2 = .returned none ∧
    (runJoinChannel envPlaysToEnd idleRun "guild" "user" 0).1.clock = 1370001000 ∧
    (runJoinChannel envPlaysToEnd idleRun "guild" "user" 0).1.audioState.lastPlayed
      = ⟨1370001000, false, true⟩ ∧
    (runJoinChannel envPlaysToEnd idleRun "guild" "user" 0).1.audioState.lastPlayed.isPlaying
      = false := by
  have hret : (runJoinChannel envPlaysToEnd idleRun "guild" "user" 0).2 = .returned none := by
    rw [runJoinChannel]
    decide
  refine ⟨rfl, hret, ?_, ?_,
    (runJoinChannel_exit_state envPlaysToEnd idleRun "guild" "user" 0 rfl).2 none hret⟩
  · rw [runJoinChannel]
    decide
  · rw [runJoinChannel]
    decide

/-- C5 as stated fails on an early error return: the user is in no voice
channel, the call started at clock 1000 on a session with `isPlaying = false`
returns the lookup error, and `lastPlayedTime` is still 0, not the instant of
the return. -/
theorem runJoinChannel_early_return_keeps_lastPlayedTime :
    idleRun.audioState.lastPlayed.isPlaying = false ∧
    (runJoinChannel envUserAbsent idleRun "guild" "user" 0).2
      = .returned (some "error finding user voice channel: user is not in a voice channel") ∧
    (runJoinChannel envUserAbsent idleRun "guild" "user" 0).1.clock = 1000 ∧
    (runJoinChannel envUserAbsent idleRun "guild" "user" 0).1.audioState.lastPlayed.lastPlayedTime
      = 0 ∧
    (runJoinChannel envUserAbsent idleRun "guild" "user" 0).1.audioState.lastPlayed.lastPlayedTime
      ≠ (runJoinChannel envUserAbsent idleRun "guild" "user" 0).1.clock := by
  have h : runJoinChannel envUserAbsent idleRun "guild" "user" 0
      = ({ idleRun with s := { idleRun.s with Guilds := [] } },
        .returned (some "error finding user voice channel: user is not in a voice channel")) := by
    rw [runJoinChannel]
    rfl
  rw [h]
  refine ⟨rfl, rfl, rfl, rfl, ?_⟩
  decide

/-! ## Encode/Send stage -/

theorem flagAfter_pause (sofar : List Event) : flagAfter (sofar ++ [.pause]) = true := by
  simp [flagAfter, List.filter_append, isSignal]

theorem flagAfter_resume (sofar : List Event) : flagAfter (sofar ++ [.resume]) = false := by
  simp [flagAfter, List.filter_append, isSignal]

theorem flagAfter_frame (sofar : List Event) (recv : List int16) (ready : Bool) :
    flagAfter (sofar ++ [.frame recv ready]) = flagAfter sofar := by
  simp [flagAfter, List.filter_append, isSignal]

theorem flagAfter_closed (sofar : List Event) :
    flagAfter (sofar ++ [.closed]) = flagAfter sofar := by
  simp [flagAfter, List.filter_append, isSignal]

theorem sendLoop_sends_only_clear (env : SendEnv) (events : List Event) :
    ∀ (sofar : List Event) (st : SendState), st.paused = flagAfter sofar →
      ∃ done more sentNew more2,
        clearArrivals sofar events = done ++ more ∧
        (sendLoop env st events).1.encoded = st.encoded ++ done ∧
        encodeAll env st.encoded done = sentNew ++ more2 ∧
        (sendLoop env st events).1.opusSend = st.opusSend ++ sentNew := by
  induction events with
  | nil =>
    intro sofar st _
    exact ⟨[], [], [], [], by simp [clearArrivals], by simp [sendLoop], by simp [encodeAll],
      by simp [sendLoop]⟩
  | cons e rest ih =>
    intro sofar st hp
    cases e with
    | pause =>
      simpa [sendLoop, clearArrivals] using
        ih (sofar ++ [.pause]) { st with paused := true } (by simp [flagAfter_pause])
    | resume =>
      simpa [sendLoop, clearArrivals] using
        ih (sofar ++ [.resume]) { st with paused := false } (by simp [flagAfter_resume])
    | closed =>
      exact ⟨[], clearArrivals sofar (.closed :: rest), [], [], by simp, by simp [sendLoop],
        by simp [encodeAll], by simp [sendLoop]⟩
    | frame recv ready =>
      by_cases hpaused : st.paused = true
      · have hf : flagAfter sofar = true := by rw [← hp]; exact hpaused
        simpa [sendLoop, clearArrivals, hpaused, hf] using
          ih (sofar ++ [.frame recv ready]) st (by rw [flagAfter_frame]; exact hp)
      · have hpf : st.paused = false := by simpa using hpaused
        have hf : flagAfter sofar = false := by rw [← hp]; exact hpf
        cases henc : env.encode st.encoded recv with
        | error err =>
          exact ⟨[recv], clearArrivals (sofar ++ [.frame recv ready]) rest, [], [],
            by simp [clearArrivals, hf], by simp [sendLoop, hpf, henc],
            by simp [encodeAll, henc], by simp [sendLoop, hpf, henc]⟩
        | ok opusBuf =>
          cases ready with
          | false =>
            exact ⟨[recv], clearArrivals (sofar ++ [.frame recv false]) rest, [], [opusBuf],
              by simp [clearArrivals, hf], by simp [sendLoop, hpf, henc],
              by simp [encodeAll, henc], by simp [sendLoop, hpf, henc]⟩
          | true =>
            obtain ⟨done, more, sentNew, more2, h1, h2, h3, h4⟩ :=
              ih (sofar ++ [.frame recv true])
                { st with encoded := st.encoded ++ [recv], opusSend := st.opusSend ++ [opusBuf] }
                (by rw [flagAfter_frame]; exact hp)
            refine ⟨recv :: done, more, opusBuf :: sentNew, more2, ?_, ?_, ?_, ?_⟩
            · simp [clearArrivals, hf, h1]
            · simpa [sendLoop, hpf, henc] using h2
            · simpa [encodeAll, henc] using h3
            · simpa [sendLoop, hpf, henc] using h4

theorem sendLoop_undisturbed (env : SendEnv)
    (henc : ∀ done f, ∃ opusBuf, env.encode done f = .ok opusBuf) (events : List Event) :
    ∀ (sofar : List Event) (st : SendState), st.paused = flagAfter sofar →
      undisturbed events = true →
      (sendLoop env st events).1.encoded = st.encoded ++ clearArrivals sofar events ∧
      (sendLoop env st events).1.opusSend
        = st.opusSend ++ encodeAll env st.encoded (clearArrivals sofar events) ∧
      (sendLoop env st events).2 = .blocked := by
  induction events with
  | nil =>
    intro sofar st _ _
    simp [sendLoop, clearArrivals, encodeAll]
  | cons e rest ih =>
    intro sofar st hp hu
    have hu2 : undisturbed rest = true := by
      simp only [undisturbed, List.all_cons, Bool.and_eq_true] at hu
      exact hu.2
    cases e with
    | pause =>
      simpa [sendLoop, clearArrivals] using
        ih (sofar ++ [.pause]) { st with paused := true } (by simp [flagAfter_pause]) hu2
    | resume =>
      simpa [sendLoop, clearArrivals] using
        ih (sofar ++ [.resume]) { st with paused := false } (by simp [flagAfter_resume]) hu2
    | closed => simp [undisturbed] at hu
    | frame recv ready =>
      have hr : ready = true := by
        simp only [undisturbed, List.all_cons, Bool.and_eq_true] at hu
        exact hu.1
      subst hr
      by_cases hpaused : st.paused = true
      · have hf : flagAfter sofar = true := by rw [← hp]; exact hpaused
        simpa [sendLoop, clearArrivals, hpaused, hf] using
          ih (sofar ++ [.frame recv true]) st (by rw [flagAfter_frame]; exact hp) hu2
      · have hpf : st.paused = false := by simpa using hpaused
        have hf : flagAfter sofar = false := by rw [← hp]; exact hpf
        obtain ⟨opusBuf, hb⟩ := henc st.encoded recv
        obtain ⟨h1, h2, h3⟩ :=
          ih (sofar ++ [.frame recv true])
            { st with encoded := st.encoded ++ [recv], opusSend := st.opusSend ++ [opusBuf] }
            (by rw [flagAfter_frame]; exact hp) hu2
        refine ⟨?_, ?_, ?_⟩
        · simpa [sendLoop, hpf, hb, clearArrivals, hf] using h1
        · simpa [sendLoop, hpf, hb, clearArrivals, hf, encodeAll] using h2
        · simpa [sendLoop, hpf, hb] using h3

theorem clearArrivals_append (a b : List Event) :
    ∀ sofar, clearArrivals sofar (a ++ b) = clearArrivals sofar a ++ clearArrivals (sofar ++ a) b := by
  induction a with
  | nil => intro sofar; simp [clearArrivals]
  | cons e rest ih =>
    intro sofar
    cases e <;> simp [clearArrivals, ih, List.append_assoc]

theorem flagAfter_resumes (sofar mid : List Event) (hmid : ∀ e ∈ mid, e = Event.resume) :
    flagAfter (sofar ++ [.resume] ++ mid) = false := by
  induction mid using List.reverseRecOn with
  | nil => simpa using flagAfter_resume sofar
  | append_singleton l e _ =>
    have he : e = Event.resume := hmid e (by simp)
    subst he
    rw [← List.append_assoc]
    exact flagAfter_resume _

/-- C4. For every sequence of events of `sendPCM`, starting with
`paused = false`:
(1) always, the frames passed to the encoder are an initial part of the
frames that arrived while the flag was clear, in arrival order, and the
packets written to the sink are an initial part of their encodings: no frame
that arrives while paused is encoded or sent;
(2) a frame arriving while the flag is set adds nothing to the frames that count;
(3) when the encoder works, `pcm` stays open and the connection is ready at
every frame, every frame that arrived while the flag was clear is encoded and
sent, in arrival order, and the stage is still running, waiting for the next
event;
(4) then also the first frame after a resume signal is encoded, at its place
in arrival order. -/
theorem sendPCM_pause_discipline (env : SendEnv) (events : List Event) :
    (∀ pcmNil, ∃ done more sentNew more2,
      clearArrivals [] events = done ++ more ∧
      (sendPCM env pcmNil events).1.encoded = done ∧
      encodeAll env [] done = sentNew ++ more2 ∧
      (sendPCM env pcmNil events).1.opusSend = sentNew) ∧
    (∀ before recv ready after, events = before ++ [.frame recv ready] ++ after →
      flagAfter before = true →
      clearArrivals [] events
        = clearArrivals [] before ++ clearArrivals (before ++ [.frame recv ready]) after) ∧
    (env.newEncoderErr = none →
      (∀ done f, ∃ opusBuf, env.encode done f = .ok opusBuf) →
      undisturbed events = true →
      (sendPCM env false events).1.encoded = clearArrivals [] events ∧
      (sendPCM env false events).1.opusSend = encodeAll env [] (clearArrivals [] events) ∧
      (sendPCM env false events).2 = .blocked ∧
      (∀ before mid recv after,
        events = before ++ [.resume] ++ mid ++ [.frame recv true] ++ after →
        (∀ e ∈ mid, e = Event.resume) →
        (sendPCM env false events).1.encoded
          = clearArrivals [] (before ++ [.resume] ++ mid) ++ [recv] ++
            clearArrivals (before ++ [.resume] ++ mid ++ [.frame recv true]) after)) := by
  refine ⟨?_, ?_, ?_⟩
  · intro pcmNil
    unfold sendPCM
    cases pcmNil with
    | true => exact ⟨[], clearArrivals [] events, [], [], by simp, by simp, by simp [encodeAll],
        by simp⟩
    | false =>
      cases hn : env.newEncoderErr with
      | some err =>
        exact ⟨[], clearArrivals [] events, [], [], by simp, by simp, by simp [encodeAll],
          by simp⟩
      | none =>
        obtain ⟨done, more, sentNew, more2, h1, h2, h3, h4⟩ :=
          sendLoop_sends_only_clear env events [] ⟨false, [], []⟩ (by simp [flagAfter])
        exact ⟨done, more, sentNew, more2, h1, by simpa using h2, by simpa using h3,
          by simpa using h4⟩
  · intro before recv ready after hev hflag
    subst hev
    rw [List.append_assoc, clearArrivals_append]
    simp [clearArrivals, hflag]
  · intro hn henc hu
    obtain ⟨h1, h2, h3⟩ :=
      sendLoop_undisturbed env henc events [] ⟨false, [], []⟩ (by simp [flagAfter]) hu
    have e1 : (sendPCM env false events).1.encoded = clearArrivals [] events := by
      simpa [sendPCM, hn] using h1
    refine ⟨e1, by simpa [sendPCM, hn] using h2, by simpa [sendPCM, hn] using h3, ?_⟩
    intro before mid recv after hev hmid
    rw [e1, hev]
    have hflag := flagAfter_resumes before mid hmid
    rw [clearArrivals_append, clearArrivals_append]
    simp only [List.append_assoc, List.singleton_append] at hflag
    simp [clearArrivals, hflag]

/-- Witness for C4: a frame, a pause, a frame while paused, a resume, two
more frames; the paused frame is dropped, the other three are encoded and
sent in order. -/
theorem sendPCM_pause_discipline_witness :
    (sendPCM lengthEncoder false pauseResumeEvents).1.encoded
      = [[sampleOne], [sampleTwo], []] ∧
    (sendPCM lengthEncoder false pauseResumeEvents).1.opusSend = [[1], [1], [0]] ∧
    (sendPCM lengthEncoder false pauseResumeEvents).1.encoded
      = clearArrivals [] pauseResumeEvents :=
  ⟨by decide, by decide,
    ((sendPCM_pause_discipline lengthEncoder pauseResumeEvents).2.2 rfl
      (fun _ f => ⟨[f.length], rfl⟩) (by decide)).1⟩

/-! ## Disconnect watchdog -/

theorem checkDisconnectStep_fired_iff (s : Session) (a : AudioState) (g : String)
    (timeout now : Int) :
    (checkDisconnectStep s a g timeout now).2.2 = true ↔
      (timeSince now a.lastPlayed.lastPlayedTime > timeout ∧ a.lastPlayed.isPlaying = false ∧
        a.lastPlayed.shouldCheckDisconnect = true) := by
  unfold checkDisconnectStep
  by_cases h1 : timeSince now a.lastPlayed.lastPlayedTime > timeout <;>
    cases h2 : a.lastPlayed.isPlaying <;>
    cases h3 : a.lastPlayed.shouldCheckDisconnect <;>
    simp [h1]

theorem checkDisconnectStep_fired (s : Session) (a : AudioState) (g : String)
    (timeout now : Int) (h : (checkDisconnectStep s a g timeout now).2.2 = true) :
    (checkDisconnectStep s a g timeout now).1 = (LeaveVoice s g).1 ∧
    (checkDisconnectStep s a g timeout now).2.1
      = { a with lastPlayed := { a.lastPlayed with shouldCheckDisconnect := false } } := by
  unfold checkDisconnectStep at h ⊢
  split
  · exact ⟨rfl, rfl⟩
  · rename_i hc
    simp [hc] at h

theorem checkDisconnectStep_idle (s : Session) (a : AudioState) (g : String)
    (timeout now : Int) (h : (checkDisconnectStep s a g timeout now).2.2 = false) :
    (checkDisconnectStep s a g timeout now).1 = s ∧
    (checkDisconnectStep s a g timeout now).2.1 = a := by
  unfold checkDisconnectStep at h ⊢
  split
  · rename_i hc
    simp [hc] at h
  · exact ⟨rfl, rfl⟩

theorem watchdogRun_inactive (g : String) (timeout : Int) (events : List WatchdogEvent) :
    ∀ (s : Session) (a : AudioState), a.lastPlayed.shouldCheckDisconnect = false →
      (watchdogRun g timeout s a events).2.2 = 0 := by
  induction events with
  | nil => intro s a _; rfl
  | cons e rest ih =>
    intro s a ha
    cases e with
    | check now =>
      have hnot : (checkDisconnectStep s a g timeout now).2.2 = false := by
        cases hf : (checkDisconnectStep s a g timeout now).2.2 with
        | false => rfl
        | true =>
          have := ((checkDisconnectStep_fired_iff s a g timeout now).mp hf).2.2
          rw [ha] at this
          cases this
      obtain ⟨h1, h2⟩ := checkDisconnectStep_idle s a g timeout now hnot
      simp only [watchdogRun, hnot, h1, h2]
      simpa using ih s a ha
    | playbackEnded now =>
      simp only [watchdogRun]
      exact ih s (markPlaybackEnded a now) (by simpa [markPlaybackEnded] using ha)

theorem watchdogRun_at_most_once (g : String) (timeout : Int) (events : List WatchdogEvent) :
    ∀ (s : Session) (a : AudioState), (watchdogRun g timeout s a events).2.2 ≤ 1 := by
  induction events with
  | nil => intro s a; simp [watchdogRun]
  | cons e rest ih =>
    intro s a
    cases e with
    | check now =>
      cases hf : (checkDisconnectStep s a g timeout now).2.2 with
      | false =>
        obtain ⟨h1, h2⟩ := checkDisconnectStep_idle s a g timeout now hf
        simp only [watchdogRun, hf, h1, h2]
        simpa using ih s a
      | true =>
        obtain ⟨h1, h2⟩ := checkDisconnectStep_fired s a g timeout now hf
        have h0 := watchdogRun_inactive g timeout rest (LeaveVoice s g).1
          { a with lastPlayed := { a.lastPlayed with shouldCheckDisconnect := false } } rfl
        simp only [watchdogRun, hf, h1, h2]
        simp [h0]
    | playbackEnded now =>
      simp only [watchdogRun]
      exact ih s (markPlaybackEnded a now)

/-- C6. One iteration of the `CheckDisconnectTimer` loop at the instant
`now` calls `LeaveVoice` for the guild if and only if
`time.Since(lastPlayedTime) > disconnectTimeOut`, `isPlaying` is false and
`shouldCheckDisconnect` is true. A step that does so hands the guild's voice
connection, when there is one, to `Disconnect()` once, which takes it out of
the session's connections, and sets `shouldCheckDisconnect` to false, leaving
the rest of the session state as it was; a step that does not leaves the session state and the connections
unchanged. Hence in every sequence of checks and playback ends, with no
playback start in between, at most one check disconnects. -/
theorem checkDisconnectStep_fires_at_most_once (s : Session) (audioState : AudioState)
    (guildID : String) (disconnectTimeOut now : Int) :
    ((checkDisconnectStep s audioState guildID disconnectTimeOut now).2.2 = true ↔
      (timeSince now audioState.lastPlayed.lastPlayedTime > disconnectTimeOut ∧
        audioState.lastPlayed.isPlaying = false ∧
        audioState.lastPlayed.shouldCheckDisconnect = true)) ∧
    ((checkDisconnectStep s audioState guildID disconnectTimeOut now).2.2 = true →
      (checkDisconnectStep s audioState guildID disconnectTimeOut now).1
        = (LeaveVoice s guildID).1 ∧
      (∀ vc, kvLoad s.VoiceConnections guildID = some vc →
        ∃ vc2, (checkDisconnectStep s audioState guildID disconnectTimeOut now).1.Disconnected
            = s.Disconnected ++ [(guildID, vc2)] ∧
          vc2.disconnectCalls = vc.disconnectCalls + 1 ∧
          kvLoad (checkDisconnectStep s audioState guildID disconnectTimeOut now).1.VoiceConnections
            guildID = none) ∧
      (checkDisconnectStep s audioState guildID disconnectTimeOut now).2.1
        = ⟨audioState.Player,
            ⟨audioState.lastPlayed.lastPlayedTime, audioState.lastPlayed.isPlaying, false⟩⟩) ∧
    ((checkDisconnectStep s audioState guildID disconnectTimeOut now).2.2 = false →
      (checkDisconnectStep s audioState guildID disconnectTimeOut now).1 = s ∧
      (checkDisconnectStep s audioState guildID disconnectTimeOut now).2.1 = audioState) ∧
    (∀ instants,
      (CheckDisconnectTimer s audioState guildID disconnectTimeOut instants).2.2 ≤ 1) ∧
    (∀ events, (watchdogRun guildID disconnectTimeOut s audioState events).2.2 ≤ 1) := by
  refine ⟨checkDisconnectStep_fired_iff _ _ _ _ _, ?_, checkDisconnectStep_idle _ _ _ _ _,
    fun instants => watchdogRun_at_most_once _ _ _ s audioState,
    fun events => watchdogRun_at_most_once _ _ events s audioState⟩
  intro hf
  obtain ⟨h1, h2⟩ := checkDisconnectStep_fired s audioState guildID disconnectTimeOut now hf
  refine ⟨h1, ?_, h2⟩
  intro vc hvc
  rw [h1]
  unfold LeaveVoice
  simp only [hvc]
  cases hd : vc.disconnectErr with
  | some err =>
    exact ⟨⟨some err, vc.disconnectCalls + 1, vc.closeCalls⟩, rfl, rfl,
      kvLoad_kvErase_same _ _⟩
  | none =>
    exact ⟨⟨none, vc.disconnectCalls + 1, vc.closeCalls + 1⟩, rfl, rfl,
      kvLoad_kvErase_same _ _⟩

/-- Witness for C6: a session idle since instant 0, checked at instant 1000
against a timeout of 100 with the watchdog active: the check disconnects and
clears the flag. -/
theorem checkDisconnectStep_fires_at_most_once_witness :
    (checkDisconnectStep ⟨[], [("guild", ⟨none, 0, 0⟩)], []⟩ ⟨some 0, ⟨0, false, true⟩⟩
        "guild" 100 1000).2.2 = true ∧
    (checkDisconnectStep ⟨[], [("guild", ⟨none, 0, 0⟩)], []⟩ ⟨some 0, ⟨0, false, true⟩⟩
        "guild" 100 1000).2.1 = ⟨some 0, ⟨0, false, false⟩⟩ :=
  ⟨by decide,
    ((checkDisconnectStep_fires_at_most_once ⟨[], [("guild", ⟨none, 0, 0⟩)], []⟩
      ⟨some 0, ⟨0, false, true⟩⟩ "guild" 100 1000).2.1 (by decide)).2.2⟩

/-! ## Frame loop of `playAudioFile` -/

/-- C9, the code at the failing input: two packets of the same source start
two watcher goroutines, while the packets carry one distinct source tag. -/
theorem saveAudioBySpeaker_starts_watcher_per_packet :
    (saveAudioBySpeaker "out/" 500 (RecState.init [] []) twoPacketsOneSource).watchers = [7, 7] ∧
    (saveAudioBySpeaker "out/" 500 (RecState.init [] []) twoPacketsOneSource).watchers.length = 2 ∧
    distinctSources twoPacketsOneSource = 1 := by
  refine ⟨by decide, by decide, by decide⟩

/-- C8, as the code has it. One wake-up of a watcher for a source whose
buffer and last-packet timestamp are stored: it flushes if and only if
`time.Since(lastPacketTime) >= silenceThreshold` and the buffer is non-empty.
A flush hands exactly the stored buffer to `savePCMAsWAV`, under the path
built from the save location and the source's user id, stores an empty buffer
for the source, and leaves the last-packet timestamp as it was; when the file
system accepts the write the file's data bytes are those of the buffer. A
step that does not flush leaves the whole state unchanged. -/
theorem watcherWake_flush (loc : String) (threshold : Int) (st : RecState) (s : Nat)
    (now : Int) (o : WriteOutcome) (last : Int) (buf : List int16)
    (hlast : kvLoad st.lastPacketTimes s = some last)
    (hbuf : kvLoad st.pcmBuffers s = some buf) :
    ((timeSince now last ≥ threshold ∧ buf ≠ []) →
      (watcherWake loc threshold st s now o).saveCalls
        = st.saveCalls ++ [(s, loc ++ (kvLoad st.ssrcMap s).getD "" ++ ".wav", buf)] ∧
      kvLoad (watcherWake loc threshold st s now o).pcmBuffers s = some [] ∧
      kvLoad (watcherWake loc threshold st s now o).lastPacketTimes s = some last ∧
      (o.createErr = none → o.writeErr = none →
        ∃ f, kvLoad (watcherWake loc threshold st s now o).files
            (loc ++ (kvLoad st.ssrcMap s).getD "" ++ ".wav") = some f ∧
          f.data = wavBuffer buf)) ∧
    (¬ (timeSince now last ≥ threshold ∧ buf ≠ []) →
      watcherWake loc threshold st s now o = st) := by
  constructor
  · rintro ⟨ht, hne⟩
    have hlen : ¬ buf.length = 0 := by
      intro h
      exact hne (List.length_eq_zero.mp h)
    refine ⟨?_, ?_, ?_, ?_⟩
    · simp [watcherWake, hlast, hbuf, ht, hlen]
    · simp [watcherWake, hlast, hbuf, ht, hlen, kvLoad_kvStore_same]
    · simp [watcherWake, hlast, hbuf, ht, hlen]
    · intro hc hw
      refine ⟨{ numSamples := (buf.length / channels) % 4294967296,
                numChannels := channels % 65536, sampleRate := sampleRate % 4294967296,
                bitsPerSample := 16, data := wavBuffer buf }, ?_, rfl⟩
      simp [watcherWake, hlast, hbuf, ht, hlen, savePCMAsWAV, hc, hw, kvLoad_kvStore_same]
  · intro hno
    by_cases ht : timeSince now last ≥ threshold
    · have hnil : buf = [] := by
        by_contra hne
        exact hno ⟨ht, hne⟩
      simp [watcherWake, hlast, hbuf, ht, hnil]
    · simp [watcherWake, hlast, ht]

/-- Witness for C8: source 7 has one buffered sample and has been silent
for 10 against a threshold of 5. -/
theorem watcherWake_flush_witness :
    (watcherWake "out/" 5 oneBufferedSample 7 10 ⟨none, none⟩).saveCalls
      = oneBufferedSample.saveCalls ++
        [(7, "out/" ++ (kvLoad oneBufferedSample.ssrcMap 7).getD "" ++ ".wav", [sampleOne])] ∧
    kvLoad (watcherWake "out/" 5 oneBufferedSample 7 10 ⟨none, none⟩).pcmBuffers 7 = some [] ∧
    kvLoad (watcherWake "out/" 5 oneBufferedSample 7 10 ⟨none, none⟩).lastPacketTimes 7
      = some 0 :=
  let h := (watcherWake_flush "out/" 5 oneBufferedSample 7 10 ⟨none, none⟩ 0 [sampleOne]
    rfl rfl).1 ⟨by decide, by decide⟩
  ⟨h.1, h.2.1, h.2.2.1⟩

/-- C8 as stated fails: after a successful flush at instant 10 the buffer is
empty but the last-packet timestamp is still 0, not the instant of the flush. -/
theorem watcherWake_keeps_timestamp :
    (watcherWake "out/" 5 oneBufferedSample 7 10 ⟨none, none⟩).saveCalls
      = [(7, "out/alice.wav", [sampleOne])] ∧
    kvLoad (watcherWake "out/" 5 oneBufferedSample 7 10 ⟨none, none⟩).pcmBuffers 7 = some [] ∧
    kvLoad (watcherWake "out/" 5 oneBufferedSample 7 10 ⟨none, none⟩).lastPacketTimes 7
      = some 0 ∧
    kvLoad (watcherWake "out/" 5 oneBufferedSample 7 10 ⟨none, none⟩).lastPacketTimes 7
      ≠ some 10 := by
  refine ⟨by decide, by decide, by decide, by decide⟩

theorem set_at_length {α : Type} (pre : List α) (a v : α) (rest : List α) :
    (pre ++ a :: rest).set pre.length v = pre ++ v :: rest := by
  induction pre with
  | nil => simp
  | cons x xs ih => simp [ih]

theorem PutUint16_at (pre : List Nat) (a b : Nat) (rest : List Nat) (v : Nat) :
    PutUint16 (pre ++ a :: b :: rest) pre.length v
      = pre ++ [v % 256, v / 256 % 256] ++ rest := by
  unfold PutUint16
  rw [set_at_length]
  have h : pre ++ v % 256 :: b :: rest = (pre ++ [v % 256]) ++ b :: rest := by simp
  have hl : pre.length + 1 = (pre ++ [v % 256]).length := by simp
  rw [h, hl, set_at_length]
  simp

theorem fillBuffer_spec (pcm : List int16) :
    ∀ (i : Nat) (pre post : List Nat), pre.length = i * 2 →
      fillBuffer pcm i (pre ++ List.replicate (pcm.length * 2) 0 ++ post)
        = pre ++ pcm.flatMap sampleBytes ++ post := by
  induction pcm with
  | nil => intro i pre post _; simp [fillBuffer]
  | cons x rest ih =>
    intro i pre post hpre
    have hrep : List.replicate ((x :: rest).length * 2) 0
        = 0 :: 0 :: List.replicate (rest.length * 2) 0 := by
      simp [List.length_cons, Nat.add_mul, List.replicate_succ, List.replicate_add]
    rw [hrep, fillBuffer, ← hpre]
    have h1 : pre ++ 0 :: 0 :: List.replicate (rest.length * 2) 0 ++ post
        = pre ++ 0 :: 0 :: (List.replicate (rest.length * 2) 0 ++ post) := by simp
    rw [h1, PutUint16_at]
    have h2 : pre ++ [uint16 x % 256, uint16 x / 256 % 256] ++
          (List.replicate (rest.length * 2) 0 ++ post)
        = (pre ++ sampleBytes x) ++ List.replicate (rest.length * 2) 0 ++ post := by
      simp [sampleBytes]
    rw [h2, ih (i + 1) (pre ++ sampleBytes x) post (by simp [sampleBytes, hpre]; omega)]
    simp [List.flatMap_cons]

theorem wavBuffer_eq (pcm : List int16) : wavBuffer pcm = pcm.flatMap sampleBytes := by
  have h := fillBuffer_spec pcm 0 [] [] rfl
  simpa [wavBuffer] using h

theorem readInt16LE_sampleBytes (x : int16) (rest : List Nat) :
    readInt16LE (sampleBytes x ++ rest) = x.val :: readInt16LE rest := by
  obtain ⟨v, hlo, hhi⟩ := x
  simp only [sampleBytes, uint16, List.cons_append, List.nil_append, readInt16LE]
  congr 1
  have hu : (v % 65536).toNat < 65536 := by omega
  have hcast : ((v % 65536).toNat : Int) = v % 65536 := Int.toNat_of_nonneg (by omega)
  have hsum : (v % 65536).toNat % 256 + 256 * ((v % 65536).toNat / 256 % 256)
      = (v % 65536).toNat := by omega
  rw [hsum]
  split
  · omega
  · omega

theorem receivePacket_buffer (st : RecState) (user : Packet) (now : Int) (s : Nat) :
    bufferOf (receivePacket st user now) s
      = bufferOf st s ++ (if user.SSRC = s then user.PCM else []) := by
  unfold bufferOf receivePacket
  by_cases hs : user.SSRC = s
  · subst hs
    cases hk : kvLoad st.pcmBuffers user.SSRC with
    | some b => simp [hk, kvLoad_kvStore_same]
    | none => simp [hk, kvLoad_kvStore_same]
  · have hne : s ≠ user.SSRC := fun h => hs h.symm
    cases hk : kvLoad st.pcmBuffers user.SSRC with
    | some b => simp [hk, kvLoad_kvStore_ne _ _ _ _ hne, hs]
    | none => simp [hk, kvLoad_kvStore_ne _ _ _ _ hne, hs]

theorem watcherWake_cases (loc : String) (threshold : Int) (st : RecState) (t : Nat)
    (now : Int) (o : WriteOutcome) :
    watcherWake loc threshold st t now o = st ∨
    ∃ buf, kvLoad st.pcmBuffers t = some buf ∧ buf ≠ [] ∧
      (watcherWake loc threshold st t now o).pcmBuffers = kvStore st.pcmBuffers t [] ∧
      (watcherWake loc threshold st t now o).saveCalls
        = st.saveCalls ++ [(t, loc ++ (kvLoad st.ssrcMap t).getD "" ++ ".wav", buf)] ∧
      (watcherWake loc threshold st t now o).files
        = (savePCMAsWAV st.files buf (loc ++ (kvLoad st.ssrcMap t).getD "" ++ ".wav") o).1 := by
  cases hl : kvLoad st.lastPacketTimes t with
  | none => left; simp [watcherWake, hl]
  | some last =>
    by_cases ht : timeSince now last ≥ threshold
    · cases hb : kvLoad st.pcmBuffers t with
      | none => left; simp [watcherWake, hl, ht, hb]
      | some buf =>
        by_cases hlen : buf.length = 0
        · left; simp [watcherWake, hl, ht, hb, hlen]
        · right
          refine ⟨buf, rfl, fun h => hlen (by simp [h]), ?_, ?_, ?_⟩
          · simp [watcherWake, hl, ht, hb, hlen]
          · simp [watcherWake, hl, ht, hb, hlen]
          · simp [watcherWake, hl, ht, hb, hlen]
    · left; simp [watcherWake, hl, ht]

theorem flushAt_none_of_saveCalls (loc : String) (threshold : Int) (st : RecState)
    (t : Turn) (h : (turnStep loc threshold st t).saveCalls = st.saveCalls) :
    flushAt loc threshold st t = none := by
  simp [flushAt, h]

theorem flushAt_some_of_saveCalls (loc : String) (threshold : Int) (st : RecState)
    (t : Turn) (c : Nat × String × List int16)
    (h : (turnStep loc threshold st t).saveCalls = st.saveCalls ++ [c]) :
    flushAt loc threshold st t = some (c.1, c.2.2) := by
  simp [flushAt, h]

theorem flushAt_wake (loc : String) (threshold : Int) (st : RecState) (watcher : Nat)
    (now : Int) (o : WriteOutcome) (t : Nat) (x : List int16)
    (h : flushAt loc threshold st (.wake watcher now o) = some (t, x)) :
    st.watchers[watcher]? = some t ∧ x = bufferOf st t ∧ x ≠ [] ∧
      (turnStep loc threshold st (.wake watcher now o)).saveCalls
        = st.saveCalls ++ [(t, loc ++ (kvLoad st.ssrcMap t).getD "" ++ ".wav", x)] ∧
      (turnStep loc threshold st (.wake watcher now o)).files
        = (savePCMAsWAV st.files x (loc ++ (kvLoad st.ssrcMap t).getD "" ++ ".wav") o).1 := by
  cases hw : st.watchers[watcher]? with
  | none =>
    have := flushAt_none_of_saveCalls loc threshold st (.wake watcher now o)
      (by simp [turnStep, hw])
    rw [this] at h
    cases h
  | some s =>
    rcases watcherWake_cases loc threshold st s now o with hc | ⟨buf, hb, hne, _, hsave, hfiles⟩
    · have := flushAt_none_of_saveCalls loc threshold st (.wake watcher now o)
        (by simp [turnStep, hw, hc])
      rw [this] at h
      cases h
    · have := flushAt_some_of_saveCalls loc threshold st (.wake watcher now o) _
        (by simpa [turnStep, hw] using hsave)
      rw [this] at h
      simp only [Option.some.injEq, Prod.mk.injEq] at h
      obtain ⟨h1, h2⟩ := h
      subst h1 h2
      exact ⟨rfl, by simp [bufferOf, hb], hne, by simpa [turnStep, hw] using hsave,
        by simpa [turnStep, hw] using hfiles⟩

theorem turnStep_buffer (loc : String) (threshold : Int) (st : RecState) (t : Turn)
    (s : Nat) :
    bufferOf (turnStep loc threshold st t) s
      = if (flushAt loc threshold st t).map Prod.fst = some s then []
        else bufferOf st s ++ packetPCM s t := by
  cases t with
  | packet user now =>
    have hf := flushAt_none_of_saveCalls loc threshold st (.packet user now)
      (by simp [turnStep, receivePacket])
    simp [hf, turnStep, receivePacket_buffer, packetPCM]
  | speaking ssrc userID =>
    have hf := flushAt_none_of_saveCalls loc threshold st (.speaking ssrc userID)
      (by simp [turnStep])
    simp [hf, turnStep, packetPCM, bufferOf]
  | wake watcher now o =>
    cases hw : st.watchers[watcher]? with
    | none =>
      have hf := flushAt_none_of_saveCalls loc threshold st (.wake watcher now o)
        (by simp [turnStep, hw])
      simp [hf, turnStep, hw, packetPCM]
    | some t =>
      rcases watcherWake_cases loc threshold st t now o with
        hc | ⟨buf, hb, hne, hbufs, hsave, _⟩
      · have hf := flushAt_none_of_saveCalls loc threshold st (.wake watcher now o)
          (by simp [turnStep, hw, hc])
        simp [hf, turnStep, hw, hc, packetPCM]
      · have hf := flushAt_some_of_saveCalls loc threshold st (.wake watcher now o) _
          (by simpa [turnStep, hw] using hsave)
        by_cases hts : t = s
        · subst hts
          simp [hf, turnStep, hw, bufferOf, hbufs, kvLoad_kvStore_same]
        · have hne2 : s ≠ t := fun h => hts h.symm
          simp [hf, turnStep, hw, bufferOf, hbufs, kvLoad_kvStore_ne _ _ _ _ hne2, hts,
            packetPCM]

theorem runTurns_append (loc : String) (threshold : Int) (a b : List Turn) :
    ∀ st, runTurns loc threshold st (a ++ b)
      = runTurns loc threshold (runTurns loc threshold st a) b := by
  induction a with
  | nil => intro st; simp [runTurns]
  | cons t rest ih => intro st; simp [runTurns, ih]

theorem saveAudioBySpeaker_append (loc : String) (threshold : Int) (a b : List RecEvent) :
    ∀ st, saveAudioBySpeaker loc threshold st (a ++ b)
      = saveAudioBySpeaker loc threshold (saveAudioBySpeaker loc threshold st a) b := by
  induction a with
  | nil => intro st; simp [saveAudioBySpeaker]
  | cons ev rest ih => intro st; simp [saveAudioBySpeaker, ih]

theorem history_append (loc : String) (threshold : Int) (a b : List Turn) :
    ∀ st, history loc threshold st (a ++ b)
      = history loc threshold st a ++
        history loc threshold (runTurns loc threshold st a) b := by
  induction a with
  | nil => intro st; simp [history, runTurns]
  | cons t rest ih => intro st; simp [history, runTurns, ih]

theorem buffer_is_receivedSinceFlush (loc : String) (threshold : Int)
    (ssrcMap : List (Nat × String)) (files : List (String × WavFile)) (s : Nat)
    (turns : List Turn) :
    bufferOf (runTurns loc threshold (RecState.init ssrcMap files) turns) s
      = receivedSinceFlush s
          (history loc threshold (RecState.init ssrcMap files) turns).reverse := by
  induction turns using List.reverseRecOn with
  | nil => simp [runTurns, history, receivedSinceFlush, bufferOf, RecState.init, kvLoad]
  | append_singleton ts t ih =>
    rw [runTurns_append, history_append]
    simp only [runTurns, history, List.reverse_append, List.reverse_cons,
      List.reverse_nil, List.nil_append, List.singleton_append, receivedSinceFlush]
    rw [turnStep_buffer, ih]

theorem readInt16LE_wavBuffer (pcm : List int16) :
    readInt16LE (wavBuffer pcm) = pcm.map Subtype.val := by
  rw [wavBuffer_eq]
  induction pcm with
  | nil => simp [readInt16LE]
  | cons x rest ih =>
    rw [List.flatMap_cons, readInt16LE_sampleBytes, ih]
    simp

theorem length_wavBuffer (pcm : List int16) : (wavBuffer pcm).length = 2 * pcm.length := by
  rw [wavBuffer_eq]
  induction pcm with
  | nil => simp
  | cons x rest ih =>
    rw [List.flatMap_cons, List.length_append, ih]
    simp [sampleBytes]
    omega

theorem savePCMAsWAV_data (files : List (String × WavFile)) (pcm : List int16) (path : String)
    (o : WriteOutcome) (hc : o.createErr = none) (hw : o.writeErr = none) :
    (savePCMAsWAV files pcm path o).2 = none ∧
    ∃ f, kvLoad (savePCMAsWAV files pcm path o).1 path = some f ∧ f.data = wavBuffer pcm := by
  refine ⟨by simp [savePCMAsWAV, hc, hw], ?_⟩
  refine ⟨{ numSamples := (pcm.length / channels) % 4294967296,
            numChannels := channels % 65536, sampleRate := sampleRate % 4294967296,
            bitsPerSample := 16, data := wavBuffer pcm }, ?_, rfl⟩
  simp [savePCMAsWAV, hc, hw, kvLoad_kvStore_same]

theorem steps_packet (loc : String) (threshold : Int) (st : RecState) (user : Packet)
    (now : Int) (hloop : st.loop = .waiting) :
    saveAudioBySpeaker loc threshold st (Turn.packet user now).steps
      = receivePacket st user now := by
  obtain ⟨bufs, times, watchers, ssrcMap, files, saveCalls, loop, held⟩ := st
  simp only at hloop
  subst hloop
  cases hk : kvLoad bufs user.SSRC with
  | some b =>
    simp [saveAudioBySpeaker, Turn.steps, recStep, loopLoad, loopStoreBuffer, loopStoreTime,
      receivePacket, hk]
  | none =>
    simp [saveAudioBySpeaker, Turn.steps, recStep, loopLoad, loopStoreBuffer, loopStoreTime,
      receivePacket, hk]

theorem steps_wake (loc : String) (threshold : Int) (st : RecState) (watcher : Nat)
    (now : Int) (o : WriteOutcome) (hheld : kvLoad st.held watcher = none) :
    saveAudioBySpeaker loc threshold st (Turn.wake watcher now o).steps
      = turnStep loc threshold st (.wake watcher now o) := by
  obtain ⟨bufs, times, watchers, ssrcMap, files, saveCalls, loop, held⟩ := st
  simp only at hheld
  cases hw : watchers[watcher]? with
  | none =>
    simp [saveAudioBySpeaker, Turn.steps, recStep, wakeCheck, wakeLoad, wakeStore, wakeSave,
      turnStep, hw]
  | some s =>
    cases hl : kvLoad times s with
    | none =>
      simp [saveAudioBySpeaker, Turn.steps, recStep, wakeCheck, wakeLoad, wakeStore, wakeSave,
        turnStep, watcherWake, hw, hl, hheld]
    | some last =>
      by_cases ht : timeSince now last ≥ threshold
      · cases hb : kvLoad bufs s with
        | none =>
          simp [saveAudioBySpeaker, Turn.steps, recStep, wakeCheck, wakeLoad, wakeStore,
            wakeSave, turnStep, watcherWake, hw, hl, hheld, ht, hb, kvLoad_kvStore_same,
            kvErase_kvStore_absent _ _ _ hheld]
        | some buf =>
          by_cases hlen : buf.length = 0
          · simp [saveAudioBySpeaker, Turn.steps, recStep, wakeCheck, wakeLoad, wakeStore,
              wakeSave, turnStep, watcherWake, hw, hl, hheld, ht, hb, hlen,
              kvLoad_kvStore_same, kvErase_kvStore_absent _ _ _ hheld]
          · simp [saveAudioBySpeaker, Turn.steps, recStep, wakeCheck, wakeLoad, wakeStore,
              wakeSave, turnStep, watcherWake, hw, hl, hheld, ht, hb, hlen,
              kvLoad_kvStore_same, kvStore_kvStore, kvErase_kvStore_absent _ _ _ hheld]
      · simp [saveAudioBySpeaker, Turn.steps, recStep, wakeCheck, wakeLoad, wakeStore, wakeSave,
          turnStep, watcherWake, hw, hl, hheld, ht]

theorem turnStep_quiet (loc : String) (threshold : Int) (st : RecState) (t : Turn) :
    (turnStep loc threshold st t).loop = st.loop ∧
    (turnStep loc threshold st t).held = st.held := by
  cases t with
  | packet user now => simp [turnStep, receivePacket]
  | speaking ssrc userID => simp [turnStep]
  | wake watcher now o =>
    cases hw : st.watchers[watcher]? with
    | none => simp [turnStep, hw]
    | some s =>
      simp only [turnStep, hw, watcherWake]
      repeat' split
      all_goals exact ⟨rfl, rfl⟩

theorem steps_turn (loc : String) (threshold : Int) (st : RecState) (t : Turn)
    (hloop : st.loop = .waiting) (hheld : st.held = []) :
    saveAudioBySpeaker loc threshold st t.steps = turnStep loc threshold st t := by
  cases t with
  | packet user now => simpa [turnStep] using steps_packet loc threshold st user now hloop
  | wake watcher now o => exact steps_wake loc threshold st watcher now o (by simp [hheld, kvLoad])
  | speaking ssrc userID => simp [saveAudioBySpeaker, Turn.steps, recStep, turnStep]

theorem undisturbed_run (loc : String) (threshold : Int) (turns : List Turn) :
    ∀ st : RecState, st.loop = .waiting → st.held = [] →
      saveAudioBySpeaker loc threshold st (turns.flatMap Turn.steps)
        = runTurns loc threshold st turns := by
  induction turns with
  | nil => intro st _ _; simp [saveAudioBySpeaker, runTurns]
  | cons t rest ih =>
    intro st hloop hheld
    rw [List.flatMap_cons, saveAudioBySpeaker_append, steps_turn loc threshold st t hloop hheld]
    obtain ⟨h1, h2⟩ := turnStep_quiet loc threshold st t
    rw [ih _ (by rw [h1]; exact hloop) (by rw [h2]; exact hheld)]
    simp [runTurns]

theorem runTurns_watchers (loc : String) (threshold : Int) (turns : List Turn) :
    ∀ st : RecState,
      (runTurns loc threshold st turns).watchers.length
        = st.watchers.length + packetCount turns := by
  induction turns with
  | nil => intro st; simp [runTurns, packetCount]
  | cons t rest ih =>
    intro st
    rw [runTurns, ih]
    cases t with
    | packet user now =>
      simp [turnStep, receivePacket, packetCount]
      omega
    | wake watcher now o =>
      have : (turnStep loc threshold st (.wake watcher now o)).watchers = st.watchers := by
        simp only [turnStep, watcherWake]
        repeat' split
        all_goals rfl
      rw [this]
      simp [packetCount]
    | speaking ssrc userID => simp [turnStep, packetCount]

/-- When every loop iteration and every watcher wake-up runs from start to
end with no other goroutine stepping in between, the schedule does what the
whole turns do, and then the samples a flush of a source hands to
`savePCMAsWAV` are the PCM of that source's packets since its previous flush;
the file, when the write is accepted, holds the buffer built from them. A
packet of another source leaves a source's buffer as it was. -/
theorem undisturbed_flush_is_received_pcm (loc : String) (threshold : Int)
    (ssrcMap : List (Nat × String)) (files : List (String × WavFile))
    (turns : List Turn) (watcher : Nat) (now : Int) (o : WriteOutcome) :
    saveAudioBySpeaker loc threshold (RecState.init ssrcMap files) (turns.flatMap Turn.steps)
      = runTurns loc threshold (RecState.init ssrcMap files) turns ∧
    (∀ s, bufferOf (saveAudioBySpeaker loc threshold (RecState.init ssrcMap files)
        (turns.flatMap Turn.steps)) s
      = receivedSinceFlush s
          (history loc threshold (RecState.init ssrcMap files) turns).reverse) ∧
    (∀ s x, flushAt loc threshold
        (saveAudioBySpeaker loc threshold (RecState.init ssrcMap files)
          (turns.flatMap Turn.steps))
        (.wake watcher now o) = some (s, x) →
      (saveAudioBySpeaker loc threshold (RecState.init ssrcMap files)
        (turns.flatMap Turn.steps)).watchers[watcher]? = some s ∧
      x = receivedSinceFlush s
        (history loc threshold (RecState.init ssrcMap files) turns).reverse ∧
      (o.createErr = none → o.writeErr = none →
        ∃ path f, kvLoad (saveAudioBySpeaker loc threshold (RecState.init ssrcMap files)
            ((turns ++ [Turn.wake watcher now o]).flatMap Turn.steps)).files path = some f ∧
          f.data = wavBuffer x)) ∧
    (∀ s user t, user.SSRC ≠ s →
      bufferOf (receivePacket
        (saveAudioBySpeaker loc threshold (RecState.init ssrcMap files)
          (turns.flatMap Turn.steps)) user t) s
        = bufferOf (saveAudioBySpeaker loc threshold (RecState.init ssrcMap files)
          (turns.flatMap Turn.steps)) s) := by
  have hrun := undisturbed_run loc threshold turns (RecState.init ssrcMap files) rfl rfl
  have hrun2 := undisturbed_run loc threshold (turns ++ [Turn.wake watcher now o])
    (RecState.init ssrcMap files) rfl rfl
  rw [hrun, hrun2]
  refine ⟨rfl, fun s => buffer_is_receivedSinceFlush loc threshold ssrcMap files s turns,
    ?_, ?_⟩
  · intro s x hflush
    obtain ⟨h1, h2, _, _, hfiles⟩ := flushAt_wake loc threshold _ watcher now o s x hflush
    refine ⟨h1, ?_, ?_⟩
    · rw [h2]
      exact buffer_is_receivedSinceFlush loc threshold ssrcMap files s turns
    · intro hc hw
      obtain ⟨_, f, hf1, hf2⟩ := savePCMAsWAV_data
        (runTurns loc threshold (RecState.init ssrcMap files) turns).files x
        (loc ++ (kvLoad (runTurns loc threshold (RecState.init ssrcMap files)
          turns).ssrcMap s).getD "" ++ ".wav") o hc hw
      refine ⟨loc ++ (kvLoad (runTurns loc threshold (RecState.init ssrcMap files)
          turns).ssrcMap s).getD "" ++ ".wav", f, ?_, hf2⟩
      rw [runTurns_append]
      simp only [runTurns]
      rw [hfiles]
      exact hf1
  · intro s user t hne
    rw [receivePacket_buffer]
    simp [hne]

/-- C7, the code at the failing input. The loop's `LoadOrStore` and `Store`
and the watcher's `Load` and `Store` are separate `sync.Map` operations of
different goroutines. In the first schedule source 7 sends [1], [2], [3] and
the packet [2] is taken between the watcher's `Load` and its `Store` of the
empty buffer: the two flushes hand [1] and [3] to `savePCMAsWAV` and nothing
is left in the buffer, so sample 2 reaches no file. In the second schedule
source 7 sends [1], [2] and the watcher's wake-up falls between the loop's
`LoadOrStore` and its `Store`: the two flushes hand [1] and [1, 2], so
sample 1 is written twice. In neither are the flushed samples the PCM
received since the previous flush. -/
theorem saveAudioBySpeaker_flush_misses_or_repeats_samples :
    receivedPCM 7 lostSampleSchedule = [sampleOne, sampleTwo, sampleThree] ∧
    (saveAudioBySpeaker "out/" 500 (RecState.init [(7, "alice")] [])
        lostSampleSchedule).saveCalls
      = [(7, "out/alice.wav", [sampleOne]), (7, "out/alice.wav", [sampleThree])] ∧
    bufferOf (saveAudioBySpeaker "out/" 500 (RecState.init [(7, "alice")] [])
        lostSampleSchedule) 7 = [] ∧
    receivedPCM 7 repeatedSampleSchedule = [sampleOne, sampleTwo] ∧
    (saveAudioBySpeaker "out/" 500 (RecState.init [(7, "alice")] [])
        repeatedSampleSchedule).saveCalls
      = [(7, "out/alice.wav", [sampleOne]), (7, "out/alice.wav", [sampleOne, sampleTwo])] := by
  refine ⟨by decide, by decide, by decide, by decide, by decide⟩

end Discordgoaudio
